import Mathlib

/-!
Verification of the geoattendance attendance core: a shallow embedding of
the attendance admission engine (self-service geofenced check-in/out and the
admin scan toggle), the admin record editor, and the report/calendar
aggregator, translated from server/routes.js and shared/schema.js.

Timestamps are modelled as natural numbers (milliseconds since the epoch).
Geographic coordinates and distances are modelled as rationals; the
haversine evaluator itself uses floating-point trigonometry, so handlers are
parameterised over an abstract distance function and theorems quantify over
the value it computes.
-/

namespace GeoAttendance

/-- Milliseconds in one calendar day. -/
def msPerDay : Nat := 86400000

/-- Display/report timezone offset for Asia/Kolkata (+05:30) in milliseconds,
as used by formatISTDateTime day keys. -/
def istOffsetMs : Nat := 19800000

/-- A row of the centers table (shared/schema.js); the check-in handler
guards lat/lng/radiusMeters against null, so they are optional here. -/
structure Center where
  id : Nat
  lat : Option Rat
  lng : Option Rat
  radiusMeters : Option Rat
deriving Repr, DecidableEq

/-- A row of the students table (shared/schema.js). -/
structure Student where
  id : Nat
  userId : Nat
  centerId : Nat
deriving Repr, DecidableEq

/-- A row of the attendance_records table (shared/schema.js): checkInAt is
NOT NULL, checkOutAt null means the session is open. -/
structure AttRecord where
  id : Nat
  studentId : Nat
  centerId : Nat
  checkInAt : Nat
  status : String
  checkInLat : Option Rat
  checkInLng : Option Rat
  checkInAccuracy : Option Rat
  distanceFromCenterMeters : Option Rat
  checkOutAt : Option Nat
  checkOutLat : Option Rat
  checkOutLng : Option Rat
  checkOutAccuracy : Option Rat
  distanceFromCenterCheckoutMeters : Option Rat
  deviceId : Option String
  ipAddress : Option String
  userAgent : Option String
deriving Repr, DecidableEq

/-- The relational store visible to the handlers. -/
structure Db where
  centers : List Center
  students : List Student
  records : List AttRecord
  nextRecordId : Nat
deriving Repr, DecidableEq

/-- SELECT from centers WHERE id = cid (first row). -/
def findCenterById (db : Db) (cid : Nat) : Option Center :=
  db.centers.find? (fun c => c.id == cid)

/-- SELECT from students WHERE user_id = uid (first row). -/
def findStudentByUserId (db : Db) (uid : Nat) : Option Student :=
  db.students.find? (fun s => s.userId == uid)

/-- SELECT from students WHERE id = sid (first row). -/
def findStudentById (db : Db) (sid : Nat) : Option Student :=
  db.students.find? (fun s => s.id == sid)

/-- SELECT from attendance_records WHERE id = rid (first row). -/
def findRecordById (db : Db) (rid : Nat) : Option AttRecord :=
  db.records.find? (fun r => r.id == rid)

/-- The insert operation of the record store: append the row, advance the
id counter. -/
def insertRecordDb (db : Db) (r : AttRecord) : Db :=
  { db with records := db.records ++ [r], nextRecordId := db.nextRecordId + 1 }

/-- The update-by-id operation of the record store, given as a per-row
function that is the identity away from the target id. -/
def mapRecordsDb (db : Db) (f : AttRecord → AttRecord) : Db :=
  { db with records := db.records.map f }

/-- First row of ORDER BY check_in_at DESC over a result set: the record with
the greatest check-in time (ties resolved to the earlier row). -/
def latestRecord : List AttRecord → Option AttRecord
  | [] => none
  | r :: rs =>
    match latestRecord rs with
    | none => some r
    | some m => some (if m.checkInAt > r.checkInAt then m else r)

/-- Membership test for the half-open window [s, e) used by all day-range
queries (gte on the start, lt on the end). -/
def inWindow (s e t : Nat) : Bool :=
  decide (s ≤ t) && decide (t < e)

/-- UTC calendar-day index of a timestamp. -/
def utcDay (t : Nat) : Nat := t / msPerDay

/-- Start of the UTC calendar day containing t, as computed with Date.UTC in
the flow-A handlers. -/
def utcDayStart (t : Nat) : Nat := t / msPerDay * msPerDay

/-- Local calendar-day index of a timestamp for a timezone o milliseconds
east of UTC. -/
def localDay (o t : Nat) : Nat := (t + o) / msPerDay

/-- Start of the local calendar day containing t, as computed with the local
Date constructor in the flow-B scan handler. -/
def localDayStart (o t : Nat) : Nat := (t + o) / msPerDay * msPerDay - o

/-- IST calendar-day key of a timestamp: the YYYY-MM-DD part of
formatISTDateTime, as a day index. -/
def toISTDayKey (t : Nat) : Nat := (t + istOffsetMs) / msPerDay

/-- JavaScript a || b on nullable values. -/
def jsOr {α : Type} (a b : Option α) : Option α :=
  match a with
  | some x => some x
  | none => b

/-- JavaScript String.prototype.trim: strip leading and trailing
whitespace. -/
def jsTrim (s : String) : String :=
  String.mk
    (((s.data.dropWhile Char.isWhitespace).reverse.dropWhile
      Char.isWhitespace).reverse)

/-- Outcome of POST /student/attendance/check-in (flow A). -/
inductive CheckInResult where
  | studentNotFound
  | centerNotFound
  | geofenceNotConfigured
  | alreadyCheckedIn
  | outsideGeofence (distanceMeters radiusMeters : Rat)
  | okCheckIn (recordId : Nat) (distanceMeters : Rat)
deriving Repr, DecidableEq

/-- The record inserted by a successful flow-A check-in. -/
def checkInRecord (db : Db) (student : Student) (center : Center)
    (lat lng : Rat) (accuracy : Option Rat)
    (deviceId ipAddress userAgent : Option String) (now : Nat)
    (distanceMeters : Rat) : AttRecord :=
  { id := db.nextRecordId
    studentId := student.id
    centerId := center.id
    checkInAt := now
    status := "present"
    checkInLat := some lat
    checkInLng := some lng
    checkInAccuracy := accuracy
    distanceFromCenterMeters := some distanceMeters
    checkOutAt := none
    checkOutLat := none
    checkOutLng := none
    checkOutAccuracy := none
    distanceFromCenterCheckoutMeters := none
    deviceId := deviceId
    ipAddress := ipAddress
    userAgent := userAgent }

/-- POST /student/attendance/check-in (flow A, the variant with the
duplicate-day guard): resolve the student by userId and their center, require
a configured geofence, reject if any record of the student has its check-in
inside the current UTC day window, gate on distance against the radius, and
otherwise insert a new open record with status "present". -/
def studentCheckIn (dist : Rat → Rat → Rat → Rat → Rat) (db : Db)
    (userId : Nat) (lat lng : Rat) (accuracy : Option Rat)
    (deviceId ipAddress userAgent : Option String) (now : Nat) :
    CheckInResult × Db :=
  match findStudentByUserId db userId with
  | none => (.studentNotFound, db)
  | some student =>
    match findCenterById db student.centerId with
    | none => (.centerNotFound, db)
    | some center =>
      match center.lat, center.lng, center.radiusMeters with
      | some clat, some clng, some radius =>
        let todayStart := utcDayStart now
        let tomorrowStart := todayStart + msPerDay
        match db.records.find? (fun r =>
            r.studentId == student.id &&
            inWindow todayStart tomorrowStart r.checkInAt) with
        | some _ => (.alreadyCheckedIn, db)
        | none =>
          let distanceMeters := dist clat clng lat lng
          if distanceMeters ≤ radius then
            (.okCheckIn db.nextRecordId distanceMeters,
              insertRecordDb db (checkInRecord db student center lat lng
                accuracy deviceId ipAddress userAgent now distanceMeters))
          else
            (.outsideGeofence distanceMeters radius, db)
      | _, _, _ => (.geofenceNotConfigured, db)

/-- Outcome of POST /student/attendance/check-out (flow A). -/
inductive CheckOutResult where
  | studentNotFound
  | centerNotFound
  | geofenceNotConfigured
  | noOpenSession
  | outsideGeofence (distanceMeters radiusMeters : Rat)
  | okCheckOut (recordId : Nat) (distanceMeters : Rat)
deriving Repr, DecidableEq

/-- The update applied by a flow-A check-out to the open record (and the
identity elsewhere). -/
def closeRecordA (lat lng : Rat) (accuracy : Option Rat)
    (deviceId ipAddress userAgent : Option String) (now : Nat)
    (distanceMeters : Rat) (openId : Nat) (r : AttRecord) : AttRecord :=
  if r.id == openId then
    { r with checkOutAt := some now
             checkOutLat := some lat
             checkOutLng := some lng
             checkOutAccuracy := accuracy
             distanceFromCenterCheckoutMeters := some distanceMeters
             deviceId := jsOr deviceId r.deviceId
             ipAddress := jsOr ipAddress r.ipAddress
             userAgent := jsOr userAgent r.userAgent }
  else r

/-- POST /student/attendance/check-out (flow A): find the latest open record
of the student inside the current UTC day window (no center condition),
re-validate the geofence at the check-out coordinate, and close the record. -/
def studentCheckOut (dist : Rat → Rat → Rat → Rat → Rat) (db : Db)
    (userId : Nat) (lat lng : Rat) (accuracy : Option Rat)
    (deviceId ipAddress userAgent : Option String) (now : Nat) :
    CheckOutResult × Db :=
  match findStudentByUserId db userId with
  | none => (.studentNotFound, db)
  | some student =>
    match findCenterById db student.centerId with
    | none => (.centerNotFound, db)
    | some center =>
      match center.lat, center.lng, center.radiusMeters with
      | some clat, some clng, some radius =>
        let todayStart := utcDayStart now
        let tomorrowStart := todayStart + msPerDay
        match latestRecord (db.records.filter (fun r =>
            r.studentId == student.id &&
            inWindow todayStart tomorrowStart r.checkInAt &&
            r.checkOutAt.isNone)) with
        | none => (.noOpenSession, db)
        | some openRecord =>
          let distanceMeters := dist clat clng lat lng
          if distanceMeters ≤ radius then
            (.okCheckOut openRecord.id distanceMeters,
              mapRecordsDb db (closeRecordA lat lng accuracy deviceId
                ipAddress userAgent now distanceMeters openRecord.id))
          else
            (.outsideGeofence distanceMeters radius, db)
      | _, _, _ => (.geofenceNotConfigured, db)

/-- Outcome of POST /admin/attendance/scan (flow B). -/
inductive ScanResult where
  | invalidStudentId
  | studentNotFound
  | centerNotFound
  | tooSoon
  | dailyLimitReached
  | scanCheckOut (recordId : Nat)
  | scanCheckIn (recordId : Nat)
deriving Repr, DecidableEq

/-- The effective center of a flow-B scan: the explicit centerId if it is
truthy, else the student's home center (centerId || student.centerId). -/
def effectiveCenter (student : Student) (centerId : Option Nat) : Nat :=
  match centerId with
  | some c => if c == 0 then student.centerId else c
  | none => student.centerId

/-- Today's records for (student, effective center) under the flow-B local
day window: the result set shared by the open-session lookup, the session
count and the last-record query of the scan handler. -/
def scanWindowRecords (o : Nat) (db : Db) (sid eff now : Nat) :
    List AttRecord :=
  db.records.filter (fun r =>
    r.studentId == sid && r.centerId == eff &&
    inWindow (localDayStart o now) (localDayStart o now + msPerDay)
      r.checkInAt)

/-- The open-session lookup of the scan handler: latest record of today's
window with check_out_at IS NULL. -/
def scanOpenRecord (o : Nat) (db : Db) (sid eff now : Nat) :
    Option AttRecord :=
  latestRecord
    ((scanWindowRecords o db sid eff now).filter (fun r => r.checkOutAt.isNone))

/-- The timestamp of the most recent action today, as the scan handler
computes it from the last record and the open record. -/
def scanLastActionAt (lastTodayRecord openRecord : Option AttRecord) :
    Option Nat :=
  match lastTodayRecord with
  | none => none
  | some lastR =>
    match openRecord with
    | some o =>
      if lastR.id == o.id then some lastR.checkInAt
      else some (lastR.checkOutAt.getD lastR.checkInAt)
    | none => some (lastR.checkOutAt.getD lastR.checkInAt)

/-- The minimum gap between consecutive scan actions, in milliseconds. -/
def minGapMs : Nat := 60000

/-- The update applied by a flow-B check-out to the open record (and the
identity elsewhere). -/
def closeRecordB (deviceId ipAddress userAgent : Option String) (now : Nat)
    (openId : Nat) (r : AttRecord) : AttRecord :=
  if r.id == openId then
    { r with checkOutAt := some now
             deviceId := jsOr deviceId r.deviceId
             ipAddress := jsOr ipAddress r.ipAddress
             userAgent := jsOr userAgent r.userAgent }
  else r

/-- The record inserted by a flow-B scan check-in: no telemetry, open. -/
def scanRecord (db : Db) (studentId eff : Nat)
    (deviceId ipAddress userAgent : Option String) (now : Nat) : AttRecord :=
  { id := db.nextRecordId
    studentId := studentId
    centerId := eff
    checkInAt := now
    status := "present"
    checkInLat := none
    checkInLng := none
    checkInAccuracy := none
    distanceFromCenterMeters := none
    checkOutAt := none
    checkOutLat := none
    checkOutLng := none
    checkOutAccuracy := none
    distanceFromCenterCheckoutMeters := none
    deviceId := deviceId
    ipAddress := ipAddress
    userAgent := userAgent }

/-- The post-guard tail of the scan handler: the daily cap check followed by
the check-out or check-in transition. -/
def adminScanDecide (db : Db) (studentId eff : Nat)
    (deviceId ipAddress userAgent : Option String) (now : Nat)
    (openRecord : Option AttRecord) (totalSessionsToday : Nat) :
    ScanResult × Db :=
  match openRecord with
  | some openRec =>
    (.scanCheckOut openRec.id,
      mapRecordsDb db (closeRecordB deviceId ipAddress userAgent now
        openRec.id))
  | none =>
    if totalSessionsToday ≥ 2 then (.dailyLimitReached, db)
    else
      (.scanCheckIn db.nextRecordId,
        insertRecordDb db (scanRecord db studentId eff deviceId ipAddress
          userAgent now))

/-- POST /admin/attendance/scan (flow B): resolve the student and the
effective center, build the local day window from o (the timezone offset in
milliseconds east of UTC), look up today's open record, session count and
last record, apply the double-scan cooldown and the daily cap, then either
close the open record or insert a new open record. -/
def adminScan (o : Nat) (db : Db) (studentId : Nat) (centerId : Option Nat)
    (deviceId ipAddress userAgent : Option String) (now : Nat) :
    ScanResult × Db :=
  if studentId == 0 then (.invalidStudentId, db)
  else
    match findStudentById db studentId with
    | none => (.studentNotFound, db)
    | some student =>
      let eff := effectiveCenter student centerId
      match findCenterById db eff with
      | none => (.centerNotFound, db)
      | some _center =>
        let openRecord := scanOpenRecord o db studentId eff now
        let totalSessionsToday := (scanWindowRecords o db studentId eff now).length
        let lastTodayRecord := latestRecord (scanWindowRecords o db studentId eff now)
        match scanLastActionAt lastTodayRecord openRecord with
        | some lastActionAt =>
          if now - lastActionAt < minGapMs then (.tooSoon, db)
          else adminScanDecide db studentId eff deviceId ipAddress userAgent
            now openRecord totalSessionsToday
        | none =>
          adminScanDecide db studentId eff deviceId ipAddress userAgent
            now openRecord totalSessionsToday

/-- The checkOutAt field of a set_times request body: omitted, explicit
null, or a parseable date (unparseable values behave like omitted). -/
inductive CheckOutField where
  | omitted
  | explicitNull
  | given (t : Nat)
deriving Repr, DecidableEq

/-- The action of a PATCH /admin/attendance-records/:recordId request. -/
inductive EditAction where
  | setStatus (status : String)
  | forceCheckout (checkOutAt : Option Nat)
  | reopenSession
  | setTimes (checkInAt : Option Nat) (checkOutAt : CheckOutField)
  | setCenter (centerId : Nat)
  | setCheckinLocation (lat lng : Option Rat) (accuracy : Option Rat)
deriving Repr, DecidableEq

/-- The patch object built by the PATCH handler: a some field means the key
is present in the patch; a nested Option carries an explicit null value. -/
structure RecordPatch where
  status : Option String := none
  checkInAt : Option Nat := none
  checkOutAt : Option (Option Nat) := none
  checkOutLat : Option (Option Rat) := none
  checkOutLng : Option (Option Rat) := none
  checkOutAccuracy : Option (Option Rat) := none
  distanceFromCenterCheckoutMeters : Option (Option Rat) := none
  centerId : Option Nat := none
  checkInLat : Option Rat := none
  checkInLng : Option Rat := none
  checkInAccuracy : Option (Option Rat) := none
  deviceId : Option (Option String) := none
  ipAddress : Option (Option String) := none
  userAgent : Option (Option String) := none
deriving Repr, DecidableEq

/-- Object.keys(patch).length === 0. -/
def RecordPatch.isEmpty (p : RecordPatch) : Bool :=
  p.status.isNone && p.checkInAt.isNone && p.checkOutAt.isNone &&
  p.checkOutLat.isNone && p.checkOutLng.isNone &&
  p.checkOutAccuracy.isNone && p.distanceFromCenterCheckoutMeters.isNone &&
  p.centerId.isNone && p.checkInLat.isNone && p.checkInLng.isNone &&
  p.checkInAccuracy.isNone && p.deviceId.isNone && p.ipAddress.isNone &&
  p.userAgent.isNone

/-- db.update(attendanceRecords).set(patch) applied to one record. -/
def applyPatch (r : AttRecord) (p : RecordPatch) : AttRecord :=
  { r with
    status := p.status.getD r.status
    checkInAt := p.checkInAt.getD r.checkInAt
    checkOutAt := p.checkOutAt.getD r.checkOutAt
    checkOutLat := p.checkOutLat.getD r.checkOutLat
    checkOutLng := p.checkOutLng.getD r.checkOutLng
    checkOutAccuracy := p.checkOutAccuracy.getD r.checkOutAccuracy
    distanceFromCenterCheckoutMeters :=
      p.distanceFromCenterCheckoutMeters.getD r.distanceFromCenterCheckoutMeters
    centerId := p.centerId.getD r.centerId
    checkInLat := jsOr (p.checkInLat.map some) (some r.checkInLat) |>.getD none
    checkInLng := jsOr (p.checkInLng.map some) (some r.checkInLng) |>.getD none
    checkInAccuracy := p.checkInAccuracy.getD r.checkInAccuracy
    deviceId := p.deviceId.getD r.deviceId
    ipAddress := p.ipAddress.getD r.ipAddress
    userAgent := p.userAgent.getD r.userAgent }

/-- Outcome of PATCH /admin/attendance-records/:recordId. -/
inductive EditResult where
  | invalidRecordId
  | actionRequired
  | recordNotFound
  | statusRequired
  | checkoutBeforeCheckin
  | timesRequired
  | invalidCenterId
  | editCenterNotFound
  | latLngRequired
  | noChanges
  | okEdit
deriving Repr, DecidableEq

/-- The patch-building switch of the PATCH handler: one branch per action,
each either failing with a domain error or producing the patch object. -/
def buildPatch (db : Db) (record : AttRecord) (act : EditAction)
    (reqDeviceId ipAddress userAgent : Option String) (now : Nat) :
    Except EditResult RecordPatch :=
  match act with
  | .setStatus status =>
    let st := jsTrim status
    if st == "" then .error .statusRequired
    else .ok { status := some st }
  | .forceCheckout checkOutAtBody =>
    let checkOutAt := checkOutAtBody.getD now
    if checkOutAt < record.checkInAt then .error .checkoutBeforeCheckin
    else
      .ok { checkOutAt := some (some checkOutAt)
            ipAddress := some (jsOr ipAddress record.ipAddress)
            userAgent := some (jsOr userAgent record.userAgent)
            deviceId := some (jsOr reqDeviceId record.deviceId) }
  | .reopenSession =>
    .ok { checkOutAt := some none
          checkOutLat := some none
          checkOutLng := some none
          checkOutAccuracy := some none
          distanceFromCenterCheckoutMeters := some none }
  | .setTimes checkInAt checkOutField =>
    let checkOutAt : Option Nat :=
      match checkOutField with
      | .given t => some t
      | _ => none
    if checkInAt.isNone && checkOutAt.isNone &&
        !(checkOutField == .explicitNull) then
      .error .timesRequired
    else
      let ci := checkInAt.getD record.checkInAt
      let co : Option Nat :=
        match checkOutField with
        | .explicitNull => none
        | _ => jsOr checkOutAt record.checkOutAt
      match co with
      | some coVal =>
        if coVal < ci then .error .checkoutBeforeCheckin
        else
          .ok { checkInAt := checkInAt
                checkOutAt :=
                  if checkOutField == .explicitNull then some none
                  else checkOutAt.map some |>.getD none }
      | none =>
        .ok { checkInAt := checkInAt
              checkOutAt :=
                if checkOutField == .explicitNull then some none
                else checkOutAt.map some |>.getD none }
  | .setCenter centerId =>
    if centerId == 0 then .error .invalidCenterId
    else
      match findCenterById db centerId with
      | none => .error .editCenterNotFound
      | some _ => .ok { centerId := some centerId }
  | .setCheckinLocation lat lng accuracy =>
    match lat, lng with
    | some latV, some lngV =>
      .ok { checkInLat := some latV
            checkInLng := some lngV
            checkInAccuracy :=
              some (match accuracy with
                    | some a => some a
                    | none => record.checkInAccuracy) }
    | _, _ => .error .latLngRequired

/-- PATCH /admin/attendance-records/:recordId: validate the id and action,
look up the record, build the patch, reject an empty patch with no_changes,
and otherwise write the patch to the record. -/
def adminEditRecord (db : Db) (recordId : Nat) (action : Option EditAction)
    (reqDeviceId ipAddress userAgent : Option String) (now : Nat) :
    EditResult × Db :=
  if recordId == 0 then (.invalidRecordId, db)
  else
    match action with
    | none => (.actionRequired, db)
    | some act =>
      match findRecordById db recordId with
      | none => (.recordNotFound, db)
      | some record =>
        match buildPatch db record act reqDeviceId ipAddress userAgent now with
        | .error e => (e, db)
        | .ok patch =>
          if patch.isEmpty then (.noChanges, db)
          else
            (.okEdit,
              { db with records := db.records.map (fun r =>
                  if r.id == recordId then applyPatch r patch else r) })

/-- The per-day aggregate of the report byDate map. -/
structure DayAgg where
  firstCheckInAt : Nat
  lastCheckOutAt : Option Nat
  sessionsCount : Nat
deriving Repr, DecidableEq

/-- The map entry created for the first record of a day. -/
def initAgg (r : AttRecord) : DayAgg :=
  { firstCheckInAt := r.checkInAt
    lastCheckOutAt := r.checkOutAt
    sessionsCount := 1 }

/-- Folding one further record of the same day into its aggregate:
count up, keep the earlier check-in and the later non-null check-out. -/
def accInto (prev : DayAgg) (r : AttRecord) : DayAgg :=
  { sessionsCount := prev.sessionsCount + 1
    firstCheckInAt :=
      if r.checkInAt < prev.firstCheckInAt then r.checkInAt
      else prev.firstCheckInAt
    lastCheckOutAt :=
      match r.checkOutAt with
      | none => prev.lastCheckOutAt
      | some co =>
        match prev.lastCheckOutAt with
        | none => some co
        | some p => if co > p then some co else some p }

/-- Lookup in the byDate map, modelled as an association list in insertion
order. -/
def alLookup (d : Nat) (m : List (Nat × DayAgg)) : Option DayAgg :=
  (m.find? (fun p => p.1 == d)).map (fun p => p.2)

/-- Map.set of the byDate loop: replace the value at an existing key in
place, or append the initial aggregate for a fresh key at the end. -/
def alUpdate (d : Nat) (r : AttRecord) : List (Nat × DayAgg) →
    List (Nat × DayAgg)
  | [] => [(d, initAgg r)]
  | p :: ps => if p.1 == d then (d, accInto p.2 r) :: ps else p :: alUpdate d r ps

/-- One iteration of the byDate grouping loop over a fetched record. -/
def byDateStep (m : List (Nat × DayAgg)) (r : AttRecord) :
    List (Nat × DayAgg) :=
  alUpdate (toISTDayKey r.checkInAt) r m

/-- The byDate map of GET /student/attendance/report: group the fetched
records by their IST calendar-day key. -/
def byDate (rows : List AttRecord) : List (Nat × DayAgg) :=
  rows.foldl byDateStep []

/-- buildDateListInclusive: walk one day at a time from the start date to the
end date inclusive (day indices stand for the local midnight Dates). -/
def buildDateListInclusive (fromD toD : Nat) : List Nat :=
  if _h : fromD ≤ toD then fromD :: buildDateListInclusive (fromD + 1) toD
  else []
termination_by toD + 1 - fromD
decreasing_by omega

/-- One row of the synthesized calendar view. -/
structure CalendarRow where
  date : Nat
  status : String
  firstCheckInTime : Option Nat
  lastCheckOutTime : Option Nat
  sessions : Nat
deriving Repr, DecidableEq

/-- The calendar synthesis of GET /student/attendance/report: one row per
day of the inclusive range, present with the day's aggregate when the day
key is in the byDate map, absent with null times and zero sessions
otherwise. -/
def calendarFor (rows : List AttRecord) (fromD toD : Nat) :
    List CalendarRow :=
  (buildDateListInclusive fromD toD).map (fun d =>
    match alLookup d (byDate rows) with
    | none =>
      { date := d, status := "absent", firstCheckInTime := none
        lastCheckOutTime := none, sessions := 0 }
    | some info =>
      { date := d, status := "present"
        firstCheckInTime := some info.firstCheckInAt
        lastCheckOutTime := info.lastCheckOutAt
        sessions := info.sessionsCount })

/-- An admission operation: a flow-A check-in, a flow-A check-out, or a
flow-B scan, with the request payload and the instant it arrives. -/
inductive AdmissionOp where
  | opCheckIn (userId : Nat) (lat lng : Rat) (accuracy : Option Rat)
      (deviceId ipAddress userAgent : Option String) (now : Nat)
  | opCheckOut (userId : Nat) (lat lng : Rat) (accuracy : Option Rat)
      (deviceId ipAddress userAgent : Option String) (now : Nat)
  | opScan (studentId : Nat) (centerId : Option Nat)
      (deviceId ipAddress userAgent : Option String) (now : Nat)
deriving Repr

/-- Run one admission operation against the store, keeping the store. -/
def applyOp (dist : Rat → Rat → Rat → Rat → Rat) (o : Nat) (db : Db) :
    AdmissionOp → Db
  | .opCheckIn uid lat lng acc dev ip ua now =>
    (studentCheckIn dist db uid lat lng acc dev ip ua now).2
  | .opCheckOut uid lat lng acc dev ip ua now =>
    (studentCheckOut dist db uid lat lng acc dev ip ua now).2
  | .opScan sid cid dev ip ua now =>
    (adminScan o db sid cid dev ip ua now).2

/-- Run a sequence of admission operations in order. -/
def applyOps (dist : Rat → Rat → Rat → Rat → Rat) (o : Nat) (db : Db)
    (ops : List AdmissionOp) : Db :=
  ops.foldl (applyOp dist o) db

/-- An open record belonging to the (student, center, calendar day) key,
for a given calendar-day keying of the check-in instant. -/
def openKeyP (dayKey : Nat → Nat) (s c d : Nat) (r : AttRecord) : Bool :=
  r.studentId == s && r.centerId == c && r.checkOutAt.isNone &&
  dayKey r.checkInAt == d

/-- The number of open records for a (student, center, calendar day) key. -/
def openCountForKey (dayKey : Nat → Nat) (db : Db) (s c d : Nat) : Nat :=
  db.records.countP (openKeyP dayKey s c d)

/-- The single-open-session invariant for a calendar-day keying: at most one
open record per (student, center, day). -/
def OpenInvariant (dayKey : Nat → Nat) (db : Db) : Prop :=
  ∀ s c d, openCountForKey dayKey db s c d ≤ 1

/-- A constant distance evaluator, standing for a measured distance. -/
def distConst (d : Rat) : Rat → Rat → Rat → Rat → Rat := fun _ _ _ _ => d

/-- A demonstration center with a configured 100 m geofence. -/
def demoCenter : Center := { id := 1, lat := some 0, lng := some 0, radiusMeters := some 100 }

/-- A demonstration student of the demonstration center. -/
def demoStudent : Student := { id := 1, userId := 10, centerId := 1 }

/-- A store holding the demonstration center and student and no records. -/
def demoDb : Db :=
  { centers := [demoCenter], students := [demoStudent], records := [],
    nextRecordId := 1 }

/-- A record created today at center 2, foreign to the demonstration
student's home center 1. -/
def c10Record : AttRecord :=
  { id := 5, studentId := 1, centerId := 2, checkInAt := 500,
    status := "present", checkInLat := none, checkInLng := none,
    checkInAccuracy := none, distanceFromCenterMeters := none,
    checkOutAt := none, checkOutLat := none, checkOutLng := none,
    checkOutAccuracy := none, distanceFromCenterCheckoutMeters := none,
    deviceId := none, ipAddress := none, userAgent := none }

/-- The demonstration store holding only the foreign-center record. -/
def c10Db : Db := { demoDb with records := [c10Record] }

/-- An open record of the demonstration student, checked in at IST instant
100000000 through a flow-B scan. -/
def c4Record : AttRecord :=
  { id := 7, studentId := 1, centerId := 1, checkInAt := 100000000,
    status := "present", checkInLat := none, checkInLng := none,
    checkInAccuracy := none, distanceFromCenterMeters := none,
    checkOutAt := none, checkOutLat := none, checkOutLng := none,
    checkOutAccuracy := none, distanceFromCenterCheckoutMeters := none,
    deviceId := none, ipAddress := none, userAgent := none }

/-- The demonstration store holding the single open record. -/
def c4Db : Db := { demoDb with records := [c4Record], nextRecordId := 8 }

/-- The first four flow-B scans of the cap scenario: check-in, check-out,
check-in, check-out, spaced 100 seconds apart inside one IST day. -/
def c5Ops : List AdmissionOp :=
  [.opScan 1 none none none none 100000000,
   .opScan 1 none none none none 100100000,
   .opScan 1 none none none none 100200000,
   .opScan 1 none none none none 100300000]

/-- The store after the four scans: two closed sessions today. -/
def c5Db4 : Db := applyOps (distConst 0) istOffsetMs demoDb c5Ops

/-- The resulting checkout instant of a set_times request: explicit null
clears it, a given value replaces it, an omitted field keeps the stored
value. -/
def setTimesResolvedCo (record : AttRecord) (coField : CheckOutField) :
    Option Nat :=
  match coField with
  | .explicitNull => none
  | .given t => some t
  | .omitted => record.checkOutAt

/-- A stored record with check-in at 5000 and no checkout, for the editor
scenarios. -/
def c6Record : AttRecord :=
  { id := 1, studentId := 1, centerId := 1, checkInAt := 5000,
    status := "present", checkInLat := none, checkInLng := none,
    checkInAccuracy := none, distanceFromCenterMeters := none,
    checkOutAt := none, checkOutLat := none, checkOutLng := none,
    checkOutAccuracy := none, distanceFromCenterCheckoutMeters := none,
    deviceId := none, ipAddress := none, userAgent := none }

/-- The demonstration store holding the editor-scenario record. -/
def c6Db : Db := { demoDb with records := [c6Record], nextRecordId := 2 }

/-- The effect of folding one record into the optional aggregate of its own
day: initialise on the first record, absorb afterwards. -/
def aggStep (acc : Option DayAgg) (r : AttRecord) : Option DayAgg :=
  some (match acc with
        | none => initAgg r
        | some a => accInto a r)

/-- The check-in component of the fold: keep the smaller check-in time. -/
def ciMin (x : Nat) (r : AttRecord) : Nat :=
  if r.checkInAt < x then r.checkInAt else x

/-- The checkout component of the fold: keep the larger non-null checkout. -/
def coMax (x : Option Nat) (r : AttRecord) : Option Nat :=
  match r.checkOutAt with
  | none => x
  | some c =>
    match x with
    | none => some c
    | some p => if c > p then some c else some p

/-- coMax restricted to the already-extracted checkout values. -/
def natMaxOpt (x : Option Nat) (c : Nat) : Option Nat :=
  some (match x with
        | none => c
        | some p => if c > p then c else p)

/-- Session 1 of the rollup scenario: 09:00 to 12:00 IST on IST day 1. -/
def c9Rec1 : AttRecord :=
  { id := 1, studentId := 1, centerId := 1, checkInAt := 99000000,
    status := "present", checkInLat := none, checkInLng := none,
    checkInAccuracy := none, distanceFromCenterMeters := none,
    checkOutAt := some 109800000, checkOutLat := none, checkOutLng := none,
    checkOutAccuracy := none, distanceFromCenterCheckoutMeters := none,
    deviceId := none, ipAddress := none, userAgent := none }

/-- Session 2 of the rollup scenario: 14:00 to 17:00 IST on IST day 1. -/
def c9Rec2 : AttRecord :=
  { id := 2, studentId := 1, centerId := 1, checkInAt := 117000000,
    status := "present", checkInLat := none, checkInLng := none,
    checkInAccuracy := none, distanceFromCenterMeters := none,
    checkOutAt := some 127800000, checkOutLat := none, checkOutLng := none,
    checkOutAccuracy := none, distanceFromCenterCheckoutMeters := none,
    deviceId := none, ipAddress := none, userAgent := none }

/-- The two same-day sessions as fetched, most recent first. -/
def c9Rows : List AttRecord := [c9Rec2, c9Rec1]

/-- The expected day-1 aggregate: first-in 09:00, last-out 17:00, 2
sessions. -/
def c9Agg : DayAgg :=
  { firstCheckInAt := 99000000, lastCheckOutAt := some 127800000,
    sessionsCount := 2 }

/-- An open session on IST day 3 of the absence scenario. -/
def c8Rec3 : AttRecord :=
  { id := 3, studentId := 1, centerId := 1, checkInAt := 271800000,
    status := "present", checkInLat := none, checkInLng := none,
    checkInAccuracy := none, distanceFromCenterMeters := none,
    checkOutAt := none, checkOutLat := none, checkOutLng := none,
    checkOutAccuracy := none, distanceFromCenterCheckoutMeters := none,
    deviceId := none, ipAddress := none, userAgent := none }

/-- Sessions on IST days 3 and 1 only, most recent first: day 2 is empty. -/
def c8Rows : List AttRecord := [c8Rec3, c9Rec1]

/-- The store after two flow-A check-ins at 03:00 IST and 09:00 IST of the
same IST calendar day (which lie in different UTC days). -/
def c1Db2 : Db :=
  applyOps (distConst 0) istOffsetMs demoDb
    [.opCheckIn 10 0 0 none none none none 77400000,
     .opCheckIn 10 0 0 none none none none 99000000]

/-- Every timestamp lies in its own UTC day window. -/
theorem self_inWindow (t : Nat) :
    inWindow (utcDayStart t) (utcDayStart t + msPerDay) t = true := by
  simp only [inWindow, utcDayStart, msPerDay, Bool.and_eq_true, decide_eq_true_eq]
  omega

/-- Membership in the UTC day window of now is exactly sharing now's UTC
day index. -/
theorem inWindow_utc_iff (now t : Nat) :
    inWindow (utcDayStart now) (utcDayStart now + msPerDay) t = true ↔
      utcDay t = utcDay now := by
  simp only [inWindow, utcDayStart, utcDay, msPerDay, Bool.and_eq_true,
    decide_eq_true_eq]
  omega

/-- Equal UTC day indices give equal UTC day starts. -/
theorem utcDayStart_congr {a b : Nat} (h : utcDay a = utcDay b) :
    utcDayStart a = utcDayStart b := by
  simp only [utcDay] at h
  simp only [utcDayStart, h]

/-- When the timezone offset is zero, the local day window of the flow-B
scan coincides with the UTC day window of flow A. -/
theorem localDayStart_zero (t : Nat) : localDayStart 0 t = utcDayStart t := by
  simp [localDayStart, utcDayStart]

/-- latestRecord returns none exactly on the empty result set. -/
theorem latestRecord_eq_none_iff (l : List AttRecord) :
    latestRecord l = none ↔ l = [] := by
  cases l with
  | nil => simp [latestRecord]
  | cons r rs =>
    simp only [latestRecord]
    cases latestRecord rs <;> simp

/-- The latest record belongs to the result set. -/
theorem latestRecord_mem {l : List AttRecord} {r : AttRecord}
    (h : latestRecord l = some r) : r ∈ l := by
  induction l generalizing r with
  | nil => simp [latestRecord] at h
  | cons x xs ih =>
    simp only [latestRecord] at h
    cases hx : latestRecord xs with
    | none =>
      rw [hx] at h
      simp only [Option.some.injEq] at h
      exact h ▸ List.mem_cons_self x xs
    | some m =>
      rw [hx] at h
      simp only [Option.some.injEq] at h
      by_cases hgt : m.checkInAt > x.checkInAt
      · rw [if_pos hgt] at h
        exact h ▸ List.mem_cons_of_mem x (ih hx)
      · rw [if_neg hgt] at h
        exact h ▸ List.mem_cons_self x xs

/-- The latest record has the greatest check-in time of the result set. -/
theorem latestRecord_le {l : List AttRecord} {r : AttRecord}
    (h : latestRecord l = some r) : ∀ x ∈ l, x.checkInAt ≤ r.checkInAt := by
  induction l generalizing r with
  | nil => simp
  | cons x xs ih =>
    simp only [latestRecord] at h
    cases hx : latestRecord xs with
    | none =>
      rw [hx] at h
      simp only [Option.some.injEq] at h
      have hnil : xs = [] := (latestRecord_eq_none_iff xs).mp hx
      subst hnil
      subst h
      simp
    | some m =>
      rw [hx] at h
      simp only [Option.some.injEq] at h
      intro y hy
      rcases List.mem_cons.mp hy with hy | hy
      · subst hy
        by_cases hgt : m.checkInAt > y.checkInAt
        · rw [if_pos hgt] at h
          subst h
          omega
        · rw [if_neg hgt] at h
          subst h
          omega
      · have hym := ih hx y hy
        by_cases hgt : m.checkInAt > x.checkInAt
        · rw [if_pos hgt] at h
          subst h
          omega
        · rw [if_neg hgt] at h
          subst h
          omega

/-- C2. Geofence boundary admission (flow A): with the student resolved, the
center configured and the duplicate-day guard passing, a check-in whose
measured distance is at most the radius (equality included) is admitted and
inserts one record, while a measured distance strictly beyond the radius is
rejected with outside_geofence carrying the measured distance and the
center's radius, leaving the store untouched. -/
theorem checkIn_geofence_gate (dist : Rat → Rat → Rat → Rat → Rat) (db : Db)
    (userId : Nat) (lat lng : Rat) (accuracy : Option Rat)
    (dev ip ua : Option String) (now : Nat) (student : Student)
    (center : Center) (clat clng radius : Rat)
    (hs : findStudentByUserId db userId = some student)
    (hc : findCenterById db student.centerId = some center)
    (hlat : center.lat = some clat) (hlng : center.lng = some clng)
    (hrad : center.radiusMeters = some radius)
    (hdup : db.records.find? (fun r => r.studentId == student.id &&
      inWindow (utcDayStart now) (utcDayStart now + msPerDay) r.checkInAt) =
      none) :
    (dist clat clng lat lng ≤ radius →
      (studentCheckIn dist db userId lat lng accuracy dev ip ua now).1 =
        .okCheckIn db.nextRecordId (dist clat clng lat lng) ∧
      (studentCheckIn dist db userId lat lng accuracy dev ip ua now).2.records.length =
        db.records.length + 1) ∧
    (radius < dist clat clng lat lng →
      studentCheckIn dist db userId lat lng accuracy dev ip ua now =
        (.outsideGeofence (dist clat clng lat lng) radius, db)) := by
  constructor
  · intro hle
    simp only [studentCheckIn, hs, hc, hlat, hlng, hrad, hdup, if_pos hle]
    simp [insertRecordDb]
  · intro hgt
    have hnle : ¬ dist clat clng lat lng ≤ radius := not_le.mpr hgt
    simp only [studentCheckIn, hs, hc, hlat, hlng, hrad, hdup, if_neg hnle]

/-- Witness for C2: in the demonstration store, a measured distance of 80 m
against the 100 m radius is admitted, and a measured distance of 150 m is
rejected with outside_geofence reporting 150 and 100. -/
theorem checkIn_geofence_gate_witness :
    (studentCheckIn (distConst 80) demoDb 10 0 0 none none none none 1000).1 =
      .okCheckIn 1 80 ∧
    studentCheckIn (distConst 150) demoDb 10 0 0 none none none none 1000 =
      (.outsideGeofence 150 100, demoDb) := by
  constructor
  · exact ((checkIn_geofence_gate (distConst 80) demoDb 10 0 0 none
      none none none 1000 demoStudent demoCenter 0 0 100 rfl rfl rfl rfl rfl
      rfl).1 (by simp [distConst]; norm_num)).1
  · exact (checkIn_geofence_gate (distConst 150) demoDb 10 0 0 none
      none none none 1000 demoStudent demoCenter 0 0 100 rfl rfl rfl rfl rfl
      rfl).2 (by simp [distConst]; norm_num)

/-- Any record of the student with its check-in inside the current UTC day
window makes the flow-A check-in fail with already_checked_in, regardless of
the record's center. -/
theorem checkIn_rejects_when_record_today (dist : Rat → Rat → Rat → Rat → Rat)
    (db : Db) (userId : Nat) (lat lng : Rat) (accuracy : Option Rat)
    (dev ip ua : Option String) (now : Nat) (student : Student)
    (center : Center) (clat clng radius : Rat) (r : AttRecord)
    (hs : findStudentByUserId db userId = some student)
    (hc : findCenterById db student.centerId = some center)
    (hlat : center.lat = some clat) (hlng : center.lng = some clng)
    (hrad : center.radiusMeters = some radius)
    (hr : r ∈ db.records) (hrs : r.studentId = student.id)
    (hrd : utcDay r.checkInAt = utcDay now) :
    studentCheckIn dist db userId lat lng accuracy dev ip ua now =
      (.alreadyCheckedIn, db) := by
  have hpred : (r.studentId == student.id &&
      inWindow (utcDayStart now) (utcDayStart now + msPerDay) r.checkInAt) =
      true := by
    rw [Bool.and_eq_true, beq_iff_eq, inWindow_utc_iff]
    exact ⟨hrs, hrd⟩
  cases hfind : db.records.find? (fun x => x.studentId == student.id &&
      inWindow (utcDayStart now) (utcDayStart now + msPerDay) x.checkInAt) with
  | none =>
    have := List.find?_eq_none.mp hfind r hr
    exact absurd hpred this
  | some y =>
    simp only [studentCheckIn, hs, hc, hlat, hlng, hrad, hfind]

/-- C10. The flow-A duplicate-day guard is scoped per student only: a record
of the same student inside the current UTC day window at a center other than
the student's own center still makes the self-service check-in fail with
already_checked_in, leaving the store untouched. -/
theorem checkIn_duplicate_ignores_center (dist : Rat → Rat → Rat → Rat → Rat)
    (db : Db) (userId : Nat) (lat lng : Rat) (accuracy : Option Rat)
    (dev ip ua : Option String) (now : Nat) (student : Student)
    (center : Center) (clat clng radius : Rat) (r : AttRecord)
    (hs : findStudentByUserId db userId = some student)
    (hc : findCenterById db student.centerId = some center)
    (hlat : center.lat = some clat) (hlng : center.lng = some clng)
    (hrad : center.radiusMeters = some radius)
    (hr : r ∈ db.records) (hrs : r.studentId = student.id)
    (hrd : utcDay r.checkInAt = utcDay now)
    (_hrc : r.centerId ≠ student.centerId) :
    studentCheckIn dist db userId lat lng accuracy dev ip ua now =
      (.alreadyCheckedIn, db) :=
  checkIn_rejects_when_record_today dist db userId lat lng accuracy dev ip ua
    now student center clat clng radius r hs hc hlat hlng hrad hr hrs hrd

/-- Witness for C10: in a store whose only record was created today at
center 2, the self-service check-in of the student (home center 1) is
rejected with already_checked_in. -/
theorem checkIn_duplicate_ignores_center_witness :
    studentCheckIn (distConst 0) c10Db 10 0 0 none none none none 1000 =
      (.alreadyCheckedIn, c10Db) := by
  exact checkIn_duplicate_ignores_center (distConst 0) c10Db 10 0 0 none none
    none none 1000 demoStudent demoCenter 0 0 100 c10Record rfl rfl rfl rfl rfl
    (List.mem_singleton.mpr rfl) rfl (by decide) (by decide)

/-- C3. Idempotent rejection of a second flow-A check-in: after a successful
self-service check-in, a second check-in of the same student whose instant
falls in the same UTC day window fails with already_checked_in and leaves
the store — in particular the record count — exactly as after the first
call. -/
theorem checkIn_twice_rejected (dist : Rat → Rat → Rat → Rat → Rat) (db : Db)
    (userId : Nat) (lat1 lng1 lat2 lng2 : Rat) (acc1 acc2 : Option Rat)
    (dev1 ip1 ua1 dev2 ip2 ua2 : Option String) (now1 now2 : Nat)
    (rid : Nat) (d : Rat) (db1 : Db)
    (h1 : studentCheckIn dist db userId lat1 lng1 acc1 dev1 ip1 ua1 now1 =
      (.okCheckIn rid d, db1))
    (hday : utcDay now2 = utcDay now1) :
    studentCheckIn dist db1 userId lat2 lng2 acc2 dev2 ip2 ua2 now2 =
      (.alreadyCheckedIn, db1) ∧
    (studentCheckIn dist db1 userId lat2 lng2 acc2 dev2 ip2 ua2 now2).2.records.length
      = db1.records.length := by
  cases hs : findStudentByUserId db userId with
  | none => simp [studentCheckIn, hs] at h1
  | some student =>
  cases hc : findCenterById db student.centerId with
  | none => simp [studentCheckIn, hs, hc] at h1
  | some center =>
  cases hlat : center.lat with
  | none => simp [studentCheckIn, hs, hc, hlat] at h1
  | some clat =>
  cases hlng : center.lng with
  | none => simp [studentCheckIn, hs, hc, hlat, hlng] at h1
  | some clng =>
  cases hrad : center.radiusMeters with
  | none => simp [studentCheckIn, hs, hc, hlat, hlng, hrad] at h1
  | some radius =>
  cases hdup : db.records.find? (fun r => r.studentId == student.id &&
      inWindow (utcDayStart now1) (utcDayStart now1 + msPerDay) r.checkInAt) with
  | some y => simp [studentCheckIn, hs, hc, hlat, hlng, hrad, hdup] at h1
  | none =>
  by_cases hdist : dist clat clng lat1 lng1 ≤ radius
  case neg => simp [studentCheckIn, hs, hc, hlat, hlng, hrad, hdup, hdist] at h1
  case pos =>
  simp only [studentCheckIn, hs, hc, hlat, hlng, hrad, hdup, if_pos hdist,
    Prod.mk.injEq] at h1
  have hdb1 : db1 =
      { db with
        records := db.records ++
          [checkInRecord db student center lat1 lng1 acc1 dev1 ip1 ua1 now1
            (dist clat clng lat1 lng1)]
        nextRecordId := db.nextRecordId + 1 } := h1.2.symm
  subst hdb1
  have hmem : checkInRecord db student center lat1 lng1 acc1 dev1 ip1 ua1 now1
      (dist clat clng lat1 lng1) ∈
      db.records ++ [checkInRecord db student center lat1 lng1 acc1 dev1 ip1
        ua1 now1 (dist clat clng lat1 lng1)] :=
    List.mem_append_right _ (List.mem_singleton.mpr rfl)
  have happ := checkIn_rejects_when_record_today dist
    { db with
      records := db.records ++
        [checkInRecord db student center lat1 lng1 acc1 dev1 ip1 ua1 now1
          (dist clat clng lat1 lng1)]
      nextRecordId := db.nextRecordId + 1 }
    userId lat2 lng2 acc2 dev2 ip2 ua2 now2 student center clat clng radius
    (checkInRecord db student center lat1 lng1 acc1 dev1 ip1 ua1 now1
      (dist clat clng lat1 lng1))
    hs hc hlat hlng hrad hmem rfl hday.symm
  exact ⟨happ, by rw [happ]⟩

/-- Witness for C3: in the demonstration store a first check-in at distance
80 succeeds, and a second check-in later the same UTC day is rejected with
already_checked_in without growing the record list. -/
theorem checkIn_twice_rejected_witness :
    studentCheckIn (distConst 80)
        (studentCheckIn (distConst 80) demoDb 10 0 0 none none none none 1000).2
        10 0 0 none none none none 2000 =
      (.alreadyCheckedIn,
        (studentCheckIn (distConst 80) demoDb 10 0 0 none none none none 1000).2) := by
  exact (checkIn_twice_rejected (distConst 80) demoDb 10 0 0 0 0 none none
    none none none none none none 1000 2000 1 80
    (studentCheckIn (distConst 80) demoDb 10 0 0 none none none none 1000).2
    (by decide) rfl).1

/-- If the latest record of a result set is open, it is also the latest
record of the open-only restriction of that result set. -/
theorem latestRecord_filter_open {l : List AttRecord} {lr : AttRecord}
    (h : latestRecord l = some lr) (hopen : lr.checkOutAt.isNone = true) :
    latestRecord (l.filter (fun r => r.checkOutAt.isNone)) = some lr := by
  induction l generalizing lr with
  | nil => simp [latestRecord] at h
  | cons x xs ih =>
    simp only [latestRecord] at h
    cases hx : latestRecord xs with
    | none =>
      rw [hx] at h
      simp only [Option.some.injEq] at h
      have hnil : xs = [] := (latestRecord_eq_none_iff xs).mp hx
      subst hnil
      subst h
      simp only [List.filter, hopen, latestRecord]
    | some m =>
      rw [hx] at h
      simp only [Option.some.injEq] at h
      by_cases hgt : m.checkInAt > x.checkInAt
      · rw [if_pos hgt] at h
        subst h
        have ihm := ih hx hopen
        rw [List.filter_cons]
        cases hpx : (x.checkOutAt.isNone : Bool) with
        | false =>
          rw [if_neg (by simp [hpx])]
          exact ihm
        | true =>
          rw [if_pos (by simp [hpx])]
          simp only [latestRecord, ihm, if_pos hgt]
      · rw [if_neg hgt] at h
        subst h
        rw [List.filter_cons, if_pos (by simp [hopen])]
        simp only [latestRecord]
        cases hfx : latestRecord (xs.filter (fun r => r.checkOutAt.isNone)) with
        | none => rfl
        | some m2 =>
          have hm2 : m2 ∈ xs.filter (fun r => r.checkOutAt.isNone) :=
            latestRecord_mem hfx
          have hm2xs : m2 ∈ xs := List.mem_of_mem_filter hm2
          have hle : m2.checkInAt ≤ m.checkInAt := latestRecord_le hx m2 hm2xs
          have hng : ¬ m2.checkInAt > x.checkInAt := by omega
          change some (if m2.checkInAt > x.checkInAt then m2 else x) = some x
          rw [if_neg hng]

/-- The last action timestamp used by the scan cooldown is the last record's
check-out time when that record is closed and its check-in time when it is
open, provided record ids are unique. -/
theorem scanLastActionAt_spec (o : Nat) (db : Db) (sid eff now : Nat)
    (lr : AttRecord) (hids : (db.records.map AttRecord.id).Nodup)
    (hlr : latestRecord (scanWindowRecords o db sid eff now) = some lr) :
    scanLastActionAt (some lr) (scanOpenRecord o db sid eff now) =
      some (lr.checkOutAt.getD lr.checkInAt) := by
  cases hco : lr.checkOutAt with
  | none =>
    have hopen : scanOpenRecord o db sid eff now = some lr := by
      unfold scanOpenRecord
      exact latestRecord_filter_open hlr (by simp [hco])
    rw [hopen]
    simp [scanLastActionAt, hco]
  | some c =>
    cases hop : scanOpenRecord o db sid eff now with
    | none => simp [scanLastActionAt, hco]
    | some orec =>
      have hlrw : lr ∈ scanWindowRecords o db sid eff now := latestRecord_mem hlr
      have hlrdb : lr ∈ db.records := List.mem_of_mem_filter hlrw
      have horecf : orec ∈ (scanWindowRecords o db sid eff now).filter
          (fun r => r.checkOutAt.isNone) := latestRecord_mem hop
      have horecw : orec ∈ scanWindowRecords o db sid eff now :=
        List.mem_of_mem_filter horecf
      have horecdb : orec ∈ db.records := List.mem_of_mem_filter horecw
      have horecopen : orec.checkOutAt.isNone = true :=
        (List.mem_filter.mp horecf).2
      have hneq : lr.id ≠ orec.id := by
        intro heq
        have heqrec : lr = orec :=
          List.inj_on_of_nodup_map hids hlrdb horecdb heq
        rw [← heqrec, hco] at horecopen
        simp at horecopen
      simp [scanLastActionAt, hneq, hco]

/-- C4. Double-scan cooldown (flow B): with the student, effective center
and today's last record resolved, a scan strictly less than 60 seconds after
the last action (the last record's check-out time if closed, its check-in
time otherwise) is rejected with too_soon and mutates nothing, while a scan
61 seconds or more after the last action is not rejected by that guard and
toggles: it checks out the open session when one exists and checks in a new
session when none exists and the daily cap is not yet reached. -/
theorem scan_cooldown (o : Nat) (db : Db) (sid : Nat) (cid : Option Nat)
    (dev ip ua : Option String) (now : Nat) (student : Student)
    (center : Center) (eff : Nat) (lr : AttRecord)
    (hsid : sid ≠ 0)
    (hs : findStudentById db sid = some student)
    (heff : effectiveCenter student cid = eff)
    (hcen : findCenterById db eff = some center)
    (hids : (db.records.map AttRecord.id).Nodup)
    (hlr : latestRecord (scanWindowRecords o db sid eff now) = some lr) :
    (now - (lr.checkOutAt.getD lr.checkInAt) < minGapMs →
      adminScan o db sid cid dev ip ua now = (.tooSoon, db)) ∧
    (61000 ≤ now - (lr.checkOutAt.getD lr.checkInAt) →
      (adminScan o db sid cid dev ip ua now).1 ≠ .tooSoon ∧
      (∀ orec, scanOpenRecord o db sid eff now = some orec →
        (adminScan o db sid cid dev ip ua now).1 = .scanCheckOut orec.id) ∧
      (scanOpenRecord o db sid eff now = none →
        (scanWindowRecords o db sid eff now).length < 2 →
        (adminScan o db sid cid dev ip ua now).1 =
          .scanCheckIn db.nextRecordId)) := by
  have hbeq : (sid == 0) = false := by
    simp [hsid]
  have hla := scanLastActionAt_spec o db sid eff now lr hids hlr
  constructor
  · intro hgap
    simp only [adminScan, hbeq, Bool.false_eq_true, if_false, hs, heff, hcen,
      hlr, hla, if_pos hgap]
  · intro hgap
    have hnogap : ¬ (now - (lr.checkOutAt.getD lr.checkInAt) < minGapMs) := by
      simp only [minGapMs]
      omega
    simp only [adminScan, hbeq, Bool.false_eq_true, if_false, hs, heff, hcen,
      hlr, hla, if_neg hnogap]
    refine ⟨?_, ?_, ?_⟩
    · cases hop : scanOpenRecord o db sid eff now with
      | some orec => simp [adminScanDecide, hop]
      | none =>
        by_cases hcap : (scanWindowRecords o db sid eff now).length ≥ 2
        · simp [adminScanDecide, hop, if_pos hcap]
        · simp [adminScanDecide, hop, if_neg hcap]
    · intro orec hop
      simp [adminScanDecide, hop]
    · intro hop hlen
      have hnocap : ¬ ((scanWindowRecords o db sid eff now).length ≥ 2) := by
        omega
      simp [adminScanDecide, hop, if_neg hnocap]

/-- Witness for C4: a second scan 59 seconds after the open session's
check-in is rejected with too_soon and leaves the store unchanged, while a
second scan 61 seconds after it checks the session out. -/
theorem scan_cooldown_witness :
    adminScan istOffsetMs c4Db 1 none none none none 100059000 =
      (.tooSoon, c4Db) ∧
    (adminScan istOffsetMs c4Db 1 none none none none 100061000).1 =
      .scanCheckOut 7 := by
  constructor
  · exact (scan_cooldown istOffsetMs c4Db 1 none none none none 100059000
      demoStudent demoCenter 1 c4Record (by decide) rfl rfl rfl (by decide)
      (by decide)).1 (by decide)
  · exact ((scan_cooldown istOffsetMs c4Db 1 none none none none 100061000
      demoStudent demoCenter 1 c4Record (by decide) rfl rfl rfl (by decide)
      (by decide)).2 (by decide)).2.1 c4Record (by decide)

/-- C5. Daily session cap (flow B): when no open session exists for the
(student, effective center, local day) key and today's session count is
already at least 2, the scan is rejected with daily_limit_reached and the
store is untouched; consequently in the sequence check-in, check-out,
check-in, check-out, check-in spaced beyond the cooldown, the fifth call is
rejected with daily_limit_reached. -/
theorem scan_daily_cap :
    (∀ (o : Nat) (db : Db) (sid : Nat) (cid : Option Nat)
      (dev ip ua : Option String) (now : Nat) (student : Student)
      (center : Center) (eff : Nat),
      sid ≠ 0 →
      findStudentById db sid = some student →
      effectiveCenter student cid = eff →
      findCenterById db eff = some center →
      scanOpenRecord o db sid eff now = none →
      2 ≤ (scanWindowRecords o db sid eff now).length →
      (match scanLastActionAt (latestRecord (scanWindowRecords o db sid eff now))
          (scanOpenRecord o db sid eff now) with
        | none => True
        | some la => minGapMs ≤ now - la) →
      adminScan o db sid cid dev ip ua now = (.dailyLimitReached, db)) ∧
    adminScan istOffsetMs c5Db4 1 none none none none 100400000 =
      (.dailyLimitReached, c5Db4) := by
  constructor
  · intro o db sid cid dev ip ua now student center eff hsid hs heff hcen
      hopen hcount hcool
    have hbeq : (sid == 0) = false := by simp [hsid]
    cases hlr : latestRecord (scanWindowRecords o db sid eff now) with
    | none =>
      have hnil := (latestRecord_eq_none_iff _).mp hlr
      rw [hnil] at hcount
      simp at hcount
    | some lr =>
      rw [hlr, hopen] at hcool
      simp only [scanLastActionAt] at hcool
      have hnogap : ¬ (now - (lr.checkOutAt.getD lr.checkInAt) < minGapMs) := by
        omega
      simp only [adminScan, hbeq, Bool.false_eq_true, if_false, hs, heff, hcen,
        hlr, hopen]
      simp only [scanLastActionAt, if_neg hnogap]
      simp only [adminScanDecide, if_pos hcount]
  · decide

/-- Witness for C5: the fifth scan of the cap scenario, applied through the
general guard statement at the concrete post-sequence store. -/
theorem scan_daily_cap_witness :
    adminScan istOffsetMs c5Db4 1 none none none none 100400000 =
      (.dailyLimitReached, c5Db4) := by
  exact scan_daily_cap.1 istOffsetMs c5Db4 1 none none none none 100400000
    demoStudent demoCenter 1 (by decide) (by decide) rfl (by decide)
    (by decide) (by decide)
    (by change minGapMs ≤ 100400000 - 100300000; decide)

/-- C6. Checkout-before-checkin rejection with atomicity: with the target
record found, a force_checkout whose resulting checkout instant is strictly
before the stored check-in, or a set_times whose resulting checkout is
strictly before the resulting check-in, is rejected with
checkout_before_checkin and the store — hence the stored record — is left
completely unchanged. -/
theorem edit_checkout_before_checkin (db : Db) (recordId : Nat)
    (record : AttRecord) (dev ip ua : Option String) (now : Nat)
    (hrid : recordId ≠ 0)
    (hrec : findRecordById db recordId = some record) :
    (∀ coBody : Option Nat, coBody.getD now < record.checkInAt →
      adminEditRecord db recordId (some (.forceCheckout coBody)) dev ip ua
        now = (.checkoutBeforeCheckin, db)) ∧
    (∀ (ciBody : Option Nat) (coField : CheckOutField) (v : Nat),
      ¬(ciBody = none ∧ coField = .omitted) →
      setTimesResolvedCo record coField = some v →
      v < ciBody.getD record.checkInAt →
      adminEditRecord db recordId (some (.setTimes ciBody coField)) dev ip ua
        now = (.checkoutBeforeCheckin, db)) := by
  have hbeq : (recordId == 0) = false := by simp [hrid]
  constructor
  · intro coBody hlt
    simp only [adminEditRecord, hbeq, Bool.false_eq_true, if_false, hrec,
      buildPatch, if_pos hlt]
  · intro ciBody coField v hreq hco hlt
    cases coField with
    | omitted =>
      cases ciBody with
      | none => exact absurd ⟨rfl, rfl⟩ hreq
      | some ci =>
        simp only [setTimesResolvedCo] at hco
        simp only [Option.getD_some] at hlt
        simp only [adminEditRecord, hbeq, Bool.false_eq_true, if_false, hrec,
          buildPatch, jsOr, hco]
        simp [hlt]
    | explicitNull => simp [setTimesResolvedCo] at hco
    | given t =>
      simp only [setTimesResolvedCo, Option.some.injEq] at hco
      subst hco
      simp only [adminEditRecord, hbeq, Bool.false_eq_true, if_false, hrec,
        buildPatch, jsOr]
      cases ciBody with
      | none =>
        simp only [Option.getD_none] at hlt
        simp [hlt]
      | some ci =>
        simp only [Option.getD_some] at hlt
        simp [hlt]

/-- Witness for C6: forcing checkout at 4000 on a record checked in at 5000
is rejected, as is a set_times with check-in 6000 and checkout 5500, both
leaving the store unchanged. -/
theorem edit_checkout_before_checkin_witness :
    adminEditRecord c6Db 1 (some (.forceCheckout (some 4000))) none none none
      9000 = (.checkoutBeforeCheckin, c6Db) ∧
    adminEditRecord c6Db 1 (some (.setTimes (some 6000) (.given 5500))) none
      none none 9000 = (.checkoutBeforeCheckin, c6Db) := by
  constructor
  · exact (edit_checkout_before_checkin c6Db 1 c6Record none none none 9000
      (by decide) rfl).1 (some 4000) (by decide)
  · exact (edit_checkout_before_checkin c6Db 1 c6Record none none none 9000
      (by decide) rfl).2 (some 6000) (.given 5500) 5500
      (by intro h; exact absurd h.2 (by decide)) rfl (by decide)

/-- Counterexample for C7: a set_status edit that repeats the record's
current status "present" — an edit that changes no field — is not rejected
with no_changes; the handler answers ok and performs the (identity) write. -/
theorem edit_no_changes_counterexample :
    adminEditRecord c6Db 1 (some (.setStatus "present")) none none none 9000 =
      (.okEdit, c6Db) := by
  decide

/-- C7 (amended). Every edit action fails with record_not_found and writes
nothing when no record has the target id; the no_changes rejection, however,
fires only on an empty patch object, which no supported action produces —
in particular an effectively-unchanged edit such as set_status with the
current status succeeds instead of failing with no_changes. -/
theorem edit_preconditions (db : Db) (recordId : Nat)
    (action : Option EditAction) (act : EditAction)
    (dev ip ua : Option String) (now : Nat)
    (hrid : recordId ≠ 0) :
    (findRecordById db recordId = none →
      adminEditRecord db recordId (some act) dev ip ua now =
        (.recordNotFound, db)) ∧
    (adminEditRecord db recordId action dev ip ua now).1 ≠ .noChanges := by
  have hbeq : (recordId == 0) = false := by simp [hrid]
  constructor
  · intro hrec
    simp only [adminEditRecord, hbeq, Bool.false_eq_true, if_false, hrec]
  · simp only [adminEditRecord, hbeq, Bool.false_eq_true, if_false]
    cases action with
    | none => simp
    | some act2 =>
      cases hrec : findRecordById db recordId with
      | none => simp
      | some record =>
        simp only []
        cases act2 with
        | setStatus s =>
          by_cases hst : (jsTrim s == "") = true
          · simp [buildPatch, hst]
          · simp [buildPatch, hst, RecordPatch.isEmpty]
        | forceCheckout co =>
          by_cases hlt : (co.getD now) < record.checkInAt
          · simp [buildPatch, hlt]
          · simp [buildPatch, hlt, RecordPatch.isEmpty]
        | reopenSession => simp [buildPatch, RecordPatch.isEmpty]
        | setTimes ci co =>
          cases ci with
          | none =>
            cases co with
            | omitted => simp [buildPatch]
            | explicitNull => simp [buildPatch, RecordPatch.isEmpty, jsOr]
            | given t =>
              simp only [buildPatch, jsOr]
              by_cases hlt : t < record.checkInAt
              · simp [hlt]
              · simp [hlt, RecordPatch.isEmpty]
          | some civ =>
            cases co with
            | omitted =>
              cases hrco : record.checkOutAt with
              | none => simp [buildPatch, jsOr, hrco, RecordPatch.isEmpty]
              | some rc =>
                simp only [buildPatch, jsOr, hrco]
                by_cases hlt : rc < civ
                · simp [hlt]
                · simp [hlt, RecordPatch.isEmpty]
            | explicitNull => simp [buildPatch, RecordPatch.isEmpty, jsOr]
            | given t =>
              simp only [buildPatch, jsOr]
              by_cases hlt : t < civ
              · simp [hlt]
              · simp [hlt, RecordPatch.isEmpty]
        | setCenter cid =>
          by_cases hc0 : (cid == 0) = true
          · simp [buildPatch, hc0]
          · cases hcen : findCenterById db cid with
            | none => simp [buildPatch, hc0, hcen]
            | some c => simp [buildPatch, hc0, hcen, RecordPatch.isEmpty]
        | setCheckinLocation lat lng acc =>
          cases lat with
          | none => simp [buildPatch]
          | some latv =>
            cases lng with
            | none => simp [buildPatch]
            | some lngv => simp [buildPatch, RecordPatch.isEmpty]

/-- Witness for C7 (amended): a set_status edit on a missing record id is
rejected with record_not_found, and a concrete edit never answers
no_changes. -/
theorem edit_preconditions_witness :
    adminEditRecord c6Db 99 (some (.setStatus "late")) none none none 9000 =
      (.recordNotFound, c6Db) ∧
    (adminEditRecord c6Db 1 (some (.setStatus "present")) none none none
      9000).1 ≠ .noChanges := by
  constructor
  · exact (edit_preconditions c6Db 99 (some (.setStatus "late"))
      (.setStatus "late") none none none 9000 (by decide)).1 rfl
  · exact (edit_preconditions c6Db 1 (some (.setStatus "present"))
      (.setStatus "present") none none none 9000 (by decide)).2

/-- Lookup on a cons cell of the byDate association list. -/
theorem alLookup_cons (d : Nat) (p : Nat × DayAgg) (ps : List (Nat × DayAgg)) :
    alLookup d (p :: ps) = if p.1 == d then some p.2 else alLookup d ps := by
  simp only [alLookup, List.find?]
  cases hp : (p.1 == d) with
  | true => simp
  | false => simp

/-- Updating one key of the byDate map only changes that key's aggregate,
folding the record into it. -/
theorem alLookup_alUpdate (dk d : Nat) (r : AttRecord)
    (m : List (Nat × DayAgg)) :
    alLookup d (alUpdate dk r m) =
      if dk = d then aggStep (alLookup d m) r else alLookup d m := by
  induction m with
  | nil =>
    by_cases hd : dk = d
    · subst hd
      rw [if_pos rfl]
      rw [show alUpdate dk r [] = [(dk, initAgg r)] from rfl, alLookup_cons]
      rw [if_pos (by simp)]
      simp [aggStep, alLookup, List.find?]
    · rw [if_neg hd]
      rw [show alUpdate dk r [] = [(dk, initAgg r)] from rfl, alLookup_cons]
      rw [if_neg (by simp [hd])]
  | cons p ps ih =>
    simp only [alUpdate]
    by_cases hp : p.1 = dk
    · rw [if_pos (show (p.1 == dk) = true by simpa using hp)]
      by_cases hd : dk = d
      · subst hd
        rw [if_pos rfl, alLookup_cons, alLookup_cons]
        rw [if_pos (by simp), if_pos (by simpa using hp)]
        simp [aggStep]
      · rw [if_neg hd, alLookup_cons, alLookup_cons]
        rw [if_neg (by simp [hd]), if_neg (by simp [hp, hd])]
    · rw [if_neg (show ¬ ((p.1 == dk) = true) by simpa using hp)]
      by_cases hd : dk = d
      · subst hd
        rw [if_pos rfl, alLookup_cons, alLookup_cons,
          if_neg (by simpa using hp), if_neg (by simpa using hp), ih,
          if_pos rfl]
      · rw [if_neg hd, alLookup_cons, alLookup_cons, ih, if_neg hd]

/-- The byDate aggregate of a day is the fold of exactly that day's records,
in fetch order. -/
theorem byDate_lookup_fold (rows : List AttRecord) (d : Nat) :
    ∀ m, alLookup d (List.foldl byDateStep m rows) =
      List.foldl aggStep (alLookup d m)
        (rows.filter (fun r => toISTDayKey r.checkInAt == d)) := by
  induction rows with
  | nil => intro m; rfl
  | cons r rs ih =>
    intro m
    rw [List.foldl_cons, ih (byDateStep m r), List.filter_cons]
    by_cases hd : toISTDayKey r.checkInAt = d
    · rw [if_pos (by simpa using hd)]
      rw [List.foldl_cons]
      rw [show alLookup d (byDateStep m r) = aggStep (alLookup d m) r by
        rw [byDateStep, alLookup_alUpdate, if_pos hd]]
    · rw [if_neg (by simpa using hd)]
      rw [show alLookup d (byDateStep m r) = alLookup d m by
        rw [byDateStep, alLookup_alUpdate, if_neg hd]]

/-- Closed form of the day fold from an existing aggregate: count adds the
number of records, first check-in folds with ciMin, last checkout folds with
coMax. -/
theorem foldl_aggStep_some (recs : List AttRecord) :
    ∀ a : DayAgg, List.foldl aggStep (some a) recs =
      some { firstCheckInAt := List.foldl ciMin a.firstCheckInAt recs
             lastCheckOutAt := List.foldl coMax a.lastCheckOutAt recs
             sessionsCount := a.sessionsCount + recs.length } := by
  induction recs with
  | nil => intro a; simp
  | cons r rs ih =>
    intro a
    rw [List.foldl_cons, show aggStep (some a) r = some (accInto a r) from rfl,
      ih (accInto a r), List.foldl_cons, List.foldl_cons]
    simp only [accInto, ciMin, coMax, List.length_cons]
    have harith : a.sessionsCount + 1 + rs.length =
        a.sessionsCount + (rs.length + 1) := by omega
    rw [harith]

/-- The fold of the day's records is none exactly when the day has no
records. -/
theorem foldl_aggStep_none_iff (recs : List AttRecord) :
    List.foldl aggStep none recs = none ↔ recs = [] := by
  cases recs with
  | nil => simp
  | cons r rs =>
    rw [List.foldl_cons, show aggStep none r = some (initAgg r) from rfl,
      foldl_aggStep_some]
    simp

/-- The ciMin fold is a lower bound of its seed and of every folded
check-in. -/
theorem foldl_ciMin_le (recs : List AttRecord) :
    ∀ x : Nat, List.foldl ciMin x recs ≤ x ∧
      ∀ r ∈ recs, List.foldl ciMin x recs ≤ r.checkInAt := by
  induction recs with
  | nil => intro x; simp
  | cons r rs ih =>
    intro x
    rw [List.foldl_cons]
    obtain ⟨h1, h2⟩ := ih (ciMin x r)
    have hcm : ciMin x r ≤ x ∧ ciMin x r ≤ r.checkInAt := by
      simp only [ciMin]
      split <;> omega
    refine ⟨by omega, ?_⟩
    intro y hy
    rcases List.mem_cons.mp hy with hy | hy
    · subst hy; omega
    · exact h2 y hy

/-- The ciMin fold is attained by its seed or by one of the folded
check-ins. -/
theorem foldl_ciMin_mem (recs : List AttRecord) :
    ∀ x : Nat, List.foldl ciMin x recs = x ∨
      ∃ r ∈ recs, List.foldl ciMin x recs = r.checkInAt := by
  induction recs with
  | nil => intro x; simp
  | cons r rs ih =>
    intro x
    rw [List.foldl_cons]
    rcases ih (ciMin x r) with h | ⟨y, hy, hval⟩
    · rw [h]
      simp only [ciMin]
      split
      · right; exact ⟨r, List.mem_cons_self r rs, rfl⟩
      · left; rfl
    · right
      exact ⟨y, List.mem_cons_of_mem r hy, hval⟩

/-- The coMax fold only looks at the non-null checkout values, in order. -/
theorem foldl_coMax_filterMap (recs : List AttRecord) :
    ∀ x : Option Nat, List.foldl coMax x recs =
      List.foldl natMaxOpt x (recs.filterMap (fun r => r.checkOutAt)) := by
  induction recs with
  | nil => intro x; rfl
  | cons r rs ih =>
    intro x
    rw [List.foldl_cons, List.filterMap_cons]
    cases hco : r.checkOutAt with
    | none =>
      rw [show coMax x r = x by simp [coMax, hco]]
      exact ih x
    | some c =>
      have hstep : coMax x r = natMaxOpt x c := by
        cases x with
        | none => simp [coMax, natMaxOpt, hco]
        | some p =>
          simp only [coMax, natMaxOpt, hco]
          split <;> rfl
      rw [hstep, List.foldl_cons]
      exact ih (natMaxOpt x c)

/-- One natMaxOpt step produces the larger of the seed and the value. -/
theorem natMaxOpt_step (x : Option Nat) (c : Nat) :
    ∃ m0, natMaxOpt x c = some m0 ∧ c ≤ m0 ∧ (m0 = c ∨ x = some m0) ∧
      (∀ p, x = some p → p ≤ m0) := by
  cases x with
  | none =>
    refine ⟨c, rfl, le_refl c, Or.inl rfl, ?_⟩
    intro p hp
    simp at hp
  | some p =>
    by_cases h : c > p
    · refine ⟨c, ?_, le_refl c, Or.inl rfl, ?_⟩
      · simp only [natMaxOpt]
        rw [if_pos h]
      · intro q hq
        have hq2 : p = q := Option.some.inj hq
        omega
    · refine ⟨p, ?_, by omega, Or.inr rfl, ?_⟩
      · simp only [natMaxOpt]
        rw [if_neg h]
      · intro q hq
        have hq2 : p = q := Option.some.inj hq
        omega

/-- The natMaxOpt fold of a value list: none only without seed and values,
and any produced value is a member-or-seed upper bound. -/
theorem foldl_natMaxOpt_spec (cs : List Nat) :
    ∀ x : Option Nat,
      (List.foldl natMaxOpt x cs = none ↔ (x = none ∧ cs = [])) ∧
      (∀ v, List.foldl natMaxOpt x cs = some v →
        (x = some v ∨ v ∈ cs) ∧ (∀ c ∈ cs, c ≤ v) ∧
        (∀ p, x = some p → p ≤ v)) := by
  induction cs with
  | nil =>
    intro x
    refine ⟨by simp, ?_⟩
    intro v hv
    simp only [List.foldl_nil] at hv
    refine ⟨Or.inl hv, by simp, ?_⟩
    intro p hp
    rw [hp] at hv
    have : p = v := Option.some.inj hv
    omega
  | cons c cs2 ih =>
    intro x
    rw [List.foldl_cons]
    obtain ⟨m0, hm0, hcm0, hm0or, hm0seed⟩ := natMaxOpt_step x c
    rw [hm0]
    obtain ⟨ihnone, ihsome⟩ := ih (some m0)
    constructor
    · rw [ihnone]
      simp
    · intro v hv
      obtain ⟨hmem, hub, hseed⟩ := ihsome v hv
      have hm0v : m0 ≤ v := hseed m0 rfl
      refine ⟨?_, ?_, ?_⟩
      · rcases hmem with hx | hin
        · have hveq : m0 = v := Option.some.inj hx
          rcases hm0or with hc | hxx
          · right
            rw [← hveq, hc]
            exact List.mem_cons_self c cs2
          · left
            rw [← hveq]
            exact hxx
        · right
          exact List.mem_cons_of_mem c hin
      · intro y hy
        rcases List.mem_cons.mp hy with hy | hy
        · subst hy
          omega
        · exact hub y hy
      · intro p hp
        have := hm0seed p hp
        omega

/-- The date walk of the report is the contiguous inclusive day range. -/
theorem buildDateListInclusive_eq (n : Nat) :
    ∀ fromD toD, toD + 1 - fromD = n →
      buildDateListInclusive fromD toD = List.range' fromD n := by
  induction n with
  | zero =>
    intro fromD toD h
    rw [buildDateListInclusive]
    rw [dif_neg (by omega)]
    rfl
  | succ k ih =>
    intro fromD toD h
    rw [buildDateListInclusive, dif_pos (by omega)]
    rw [ih (fromD + 1) toD (by omega)]
    rfl

/-- C8. Absence synthesis: over any valid inclusive range of days the
calendar output has exactly one row per day, in walk order; a day with at
least one fetched session is emitted as present, and a day with no session
is emitted as absent with null first and last times and a session count of
zero. -/
theorem report_calendar_rows (rows : List AttRecord) (fromD toD : Nat)
    (h : fromD ≤ toD) :
    (calendarFor rows fromD toD).length = toD - fromD + 1 ∧
    (∀ i, ∀ hi : i < (calendarFor rows fromD toD).length,
      ((calendarFor rows fromD toD).get ⟨i, hi⟩).date = fromD + i ∧
      ((∃ r ∈ rows, toISTDayKey r.checkInAt = fromD + i) →
        ((calendarFor rows fromD toD).get ⟨i, hi⟩).status = "present") ∧
      ((∀ r ∈ rows, toISTDayKey r.checkInAt ≠ fromD + i) →
        (calendarFor rows fromD toD).get ⟨i, hi⟩ =
          { date := fromD + i, status := "absent", firstCheckInTime := none,
            lastCheckOutTime := none, sessions := 0 })) := by
  have hcal : calendarFor rows fromD toD =
      (List.range' fromD (toD + 1 - fromD)).map (fun d =>
        match alLookup d (byDate rows) with
        | none =>
          { date := d, status := "absent", firstCheckInTime := none
            lastCheckOutTime := none, sessions := 0 }
        | some info =>
          { date := d, status := "present"
            firstCheckInTime := some info.firstCheckInAt
            lastCheckOutTime := info.lastCheckOutAt
            sessions := info.sessionsCount }) := by
    rw [calendarFor, buildDateListInclusive_eq (toD + 1 - fromD) fromD toD rfl]
  constructor
  · rw [hcal]
    simp only [List.length_map, List.length_range']
    omega
  · intro i hi
    have hget : (calendarFor rows fromD toD).get ⟨i, hi⟩ =
        match alLookup (fromD + i) (byDate rows) with
        | none =>
          { date := fromD + i, status := "absent", firstCheckInTime := none
            lastCheckOutTime := none, sessions := 0 }
        | some info =>
          { date := fromD + i, status := "present"
            firstCheckInTime := some info.firstCheckInAt
            lastCheckOutTime := info.lastCheckOutAt
            sessions := info.sessionsCount } := by
      simp only [List.get_eq_getElem, hcal, List.getElem_map,
        List.getElem_range', one_mul]
    rw [hget]
    have hfold : alLookup (fromD + i) (byDate rows) =
        List.foldl aggStep none
          (rows.filter (fun r => toISTDayKey r.checkInAt == fromD + i)) :=
      byDate_lookup_fold rows (fromD + i) []
    cases halook : alLookup (fromD + i) (byDate rows) with
    | none =>
      refine ⟨rfl, ?_, fun _ => rfl⟩
      intro ⟨r, hr, hrd⟩
      rw [halook] at hfold
      have hfil : r ∈ rows.filter
          (fun r => toISTDayKey r.checkInAt == fromD + i) :=
        List.mem_filter.mpr ⟨hr, by simpa using hrd⟩
      have hnil := (foldl_aggStep_none_iff _).mp hfold.symm
      rw [hnil] at hfil
      simp at hfil
    | some info =>
      refine ⟨rfl, fun _ => rfl, ?_⟩
      intro hnone
      have hfil : rows.filter (fun r => toISTDayKey r.checkInAt == fromD + i)
          = [] := by
        rw [List.filter_eq_nil_iff]
        intro r hr
        simpa using hnone r hr
      rw [halook, hfil] at hfold
      simp at hfold

/-- Witness for C8: with sessions only on IST days 1 and 3, the three-day
calendar has exactly 3 rows and day 2 is absent with null times and zero
sessions. -/
theorem report_calendar_rows_witness :
    (calendarFor c8Rows 1 3).length = 3 ∧
    (calendarFor c8Rows 1 3).get? 1 =
      some { date := 2, status := "absent", firstCheckInTime := none,
             lastCheckOutTime := none, sessions := 0 } := by
  have hmain := report_calendar_rows c8Rows 1 3 (by decide)
  refine ⟨hmain.1, ?_⟩
  have hlt : 1 < (calendarFor c8Rows 1 3).length := by
    rw [hmain.1]
    omega
  have habs := (hmain.2 1 hlt).2.2 (by decide)
  rw [List.get?_eq_get hlt, habs]

/-- C9. Multi-session daily rollup: the aggregate produced for a day with at
least one session counts exactly that day's fetched sessions, reports the
minimum check-in time as first check-in, and reports the maximum non-null
checkout as last checkout (none when every session of the day is open) —
all characterised without reference to fetch order. -/
theorem report_day_rollup (rows : List AttRecord) (d : Nat) (agg : DayAgg)
    (hagg : alLookup d (byDate rows) = some agg) :
    agg.sessionsCount =
      (rows.filter (fun r => toISTDayKey r.checkInAt == d)).length ∧
    (∃ r ∈ rows.filter (fun r => toISTDayKey r.checkInAt == d),
      agg.firstCheckInAt = r.checkInAt) ∧
    (∀ r ∈ rows.filter (fun r => toISTDayKey r.checkInAt == d),
      agg.firstCheckInAt ≤ r.checkInAt) ∧
    ((rows.filter (fun r => toISTDayKey r.checkInAt == d)).filterMap
        (fun r => r.checkOutAt) = [] → agg.lastCheckOutAt = none) ∧
    (∀ m, agg.lastCheckOutAt = some m →
      m ∈ (rows.filter (fun r => toISTDayKey r.checkInAt == d)).filterMap
        (fun r => r.checkOutAt) ∧
      ∀ c ∈ (rows.filter (fun r => toISTDayKey r.checkInAt == d)).filterMap
        (fun r => r.checkOutAt), c ≤ m) ∧
    ((rows.filter (fun r => toISTDayKey r.checkInAt == d)).filterMap
        (fun r => r.checkOutAt) ≠ [] → agg.lastCheckOutAt ≠ none) := by
  have hfold : alLookup d (byDate rows) =
      List.foldl aggStep none
        (rows.filter (fun r => toISTDayKey r.checkInAt == d)) :=
    byDate_lookup_fold rows d []
  rw [hagg] at hfold
  cases hrecs : rows.filter (fun r => toISTDayKey r.checkInAt == d) with
  | nil =>
    rw [hrecs] at hfold
    simp at hfold
  | cons h0 t =>
    rw [hrecs] at hfold
    rw [List.foldl_cons,
      show aggStep none h0 = some (initAgg h0) from rfl,
      foldl_aggStep_some] at hfold
    have hagg2 : agg =
        { firstCheckInAt := List.foldl ciMin (initAgg h0).firstCheckInAt t
          lastCheckOutAt := List.foldl coMax (initAgg h0).lastCheckOutAt t
          sessionsCount := (initAgg h0).sessionsCount + t.length } :=
      Option.some.inj hfold
    have hcolist : List.foldl coMax (initAgg h0).lastCheckOutAt t =
        List.foldl natMaxOpt none ((h0 :: t).filterMap (fun r => r.checkOutAt)) := by
      rw [List.filterMap_cons]
      cases hco : h0.checkOutAt with
      | none =>
        rw [show (initAgg h0).lastCheckOutAt = none by simp [initAgg, hco]]
        exact foldl_coMax_filterMap t none
      | some c0 =>
        rw [show (initAgg h0).lastCheckOutAt = some c0 by simp [initAgg, hco],
          List.foldl_cons,
          show natMaxOpt none c0 = some c0 from rfl]
        exact foldl_coMax_filterMap t (some c0)
    obtain ⟨hmaxnone, hmaxsome⟩ :=
      foldl_natMaxOpt_spec ((h0 :: t).filterMap (fun r => r.checkOutAt)) none
    refine ⟨?_, ?_, ?_, ?_, ?_, ?_⟩
    · rw [hagg2]
      simp only [initAgg, List.length_cons]
      omega
    · rcases foldl_ciMin_mem t (initAgg h0).firstCheckInAt with hx | ⟨r, hr, hval⟩
      · exact ⟨h0, List.mem_cons_self h0 t, by rw [hagg2]; simpa [initAgg] using hx⟩
      · exact ⟨r, List.mem_cons_of_mem h0 hr, by rw [hagg2]; exact hval⟩
    · intro r hr
      obtain ⟨hseed, hall⟩ := foldl_ciMin_le t (initAgg h0).firstCheckInAt
      rcases List.mem_cons.mp hr with hr | hr
      · subst hr
        rw [hagg2]
        simpa [initAgg] using hseed
      · rw [hagg2]
        exact hall r hr
    · intro hempty
      rw [hagg2]
      simp only [hcolist, hempty, List.foldl_nil]
    · intro m hm
      rw [hagg2] at hm
      simp only [hcolist] at hm
      obtain ⟨hmem, hub, _⟩ := hmaxsome m hm
      refine ⟨?_, hub⟩
      rcases hmem with hx | hin
      · simp at hx
      · exact hin
    · intro hne hnone
      rw [hagg2] at hnone
      simp only [hcolist] at hnone
      obtain ⟨hx, hcs⟩ := hmaxnone.mp hnone
      exact hne hcs

/-- Witness for C9: two sessions 09:00 to 12:00 and 14:00 to 17:00 IST on the
same day roll up to 2 sessions, first-in 09:00 and last-out 17:00. -/
theorem report_day_rollup_witness :
    c9Agg.sessionsCount =
      (c9Rows.filter (fun r => toISTDayKey r.checkInAt == 1)).length ∧
    (∀ r ∈ c9Rows.filter (fun r => toISTDayKey r.checkInAt == 1),
      c9Agg.firstCheckInAt ≤ r.checkInAt) ∧
    c9Agg.firstCheckInAt = 99000000 ∧ c9Agg.lastCheckOutAt = some 127800000 := by
  have hmain := report_day_rollup c9Rows 1 c9Agg (by decide)
  exact ⟨hmain.1, hmain.2.2.1, rfl, rfl⟩

/-- Counterexample for C1: under the deployed day handling — flow A windows
on UTC days, calendar-day keys in IST — two flow-A check-ins at 03:00 IST
and 09:00 IST of the same IST day both succeed, leaving two records with
checkOutAt null for the same (student, center, IST calendar day) key. -/
theorem singleOpenSession_counterexample :
    openCountForKey toISTDayKey c1Db2 1 1 1 = 2 := by
  decide

/-- A flow-A check-in either leaves the store unchanged or, with the
per-student duplicate-day guard passed, appends one new open record. -/
theorem studentCheckIn_snd (dist : Rat → Rat → Rat → Rat → Rat) (db : Db)
    (uid : Nat) (lat lng : Rat) (acc : Option Rat) (dev ip ua : Option String)
    (now : Nat) :
    (studentCheckIn dist db uid lat lng acc dev ip ua now).2 = db ∨
    ∃ student center dm,
      findStudentByUserId db uid = some student ∧
      db.records.find? (fun r => r.studentId == student.id &&
        inWindow (utcDayStart now) (utcDayStart now + msPerDay) r.checkInAt) =
        none ∧
      (studentCheckIn dist db uid lat lng acc dev ip ua now).2 =
        insertRecordDb db
          (checkInRecord db student center lat lng acc dev ip ua now dm) := by
  cases hs : findStudentByUserId db uid with
  | none => left; simp [studentCheckIn, hs]
  | some student =>
  cases hc : findCenterById db student.centerId with
  | none => left; simp [studentCheckIn, hs, hc]
  | some center =>
  cases hlat : center.lat with
  | none => left; simp [studentCheckIn, hs, hc, hlat]
  | some clat =>
  cases hlng : center.lng with
  | none => left; simp [studentCheckIn, hs, hc, hlat, hlng]
  | some clng =>
  cases hrad : center.radiusMeters with
  | none => left; simp [studentCheckIn, hs, hc, hlat, hlng, hrad]
  | some radius =>
  cases hdup : db.records.find? (fun r => r.studentId == student.id &&
      inWindow (utcDayStart now) (utcDayStart now + msPerDay) r.checkInAt) with
  | some y => left; simp [studentCheckIn, hs, hc, hlat, hlng, hrad, hdup]
  | none =>
  by_cases hdist : dist clat clng lat lng ≤ radius
  case neg =>
    left
    simp [studentCheckIn, hs, hc, hlat, hlng, hrad, hdup, hdist]
  case pos =>
    right
    refine ⟨student, center, dist clat clng lat lng, rfl, hdup, ?_⟩
    simp [studentCheckIn, hs, hc, hlat, hlng, hrad, hdup, hdist]

/-- A flow-A check-out either leaves the store unchanged or maps the record
list through the closing update of one record id. -/
theorem studentCheckOut_snd (dist : Rat → Rat → Rat → Rat → Rat) (db : Db)
    (uid : Nat) (lat lng : Rat) (acc : Option Rat) (dev ip ua : Option String)
    (now : Nat) :
    (studentCheckOut dist db uid lat lng acc dev ip ua now).2 = db ∨
    ∃ openId dm,
      (studentCheckOut dist db uid lat lng acc dev ip ua now).2 =
        mapRecordsDb db (closeRecordA lat lng acc dev ip ua now dm openId) := by
  cases hs : findStudentByUserId db uid with
  | none => left; simp [studentCheckOut, hs]
  | some student =>
  cases hc : findCenterById db student.centerId with
  | none => left; simp [studentCheckOut, hs, hc]
  | some center =>
  cases hlat : center.lat with
  | none => left; simp [studentCheckOut, hs, hc, hlat]
  | some clat =>
  cases hlng : center.lng with
  | none => left; simp [studentCheckOut, hs, hc, hlat, hlng]
  | some clng =>
  cases hrad : center.radiusMeters with
  | none => left; simp [studentCheckOut, hs, hc, hlat, hlng, hrad]
  | some radius =>
  cases hopen : latestRecord (db.records.filter (fun r =>
      r.studentId == student.id &&
      inWindow (utcDayStart now) (utcDayStart now + msPerDay) r.checkInAt &&
      r.checkOutAt.isNone)) with
  | none => left; simp [studentCheckOut, hs, hc, hlat, hlng, hrad, hopen]
  | some openRecord =>
  by_cases hdist : dist clat clng lat lng ≤ radius
  case neg =>
    left
    simp [studentCheckOut, hs, hc, hlat, hlng, hrad, hopen, hdist]
  case pos =>
    right
    refine ⟨openRecord.id, dist clat clng lat lng, ?_⟩
    simp [studentCheckOut, hs, hc, hlat, hlng, hrad, hopen, hdist]

/-- A flow-B scan either leaves the store unchanged, maps the record list
through the closing update of one record id, or — only when no open record
exists for (student, effective center, today) — appends one new open
record. -/
theorem adminScan_snd (o : Nat) (db : Db) (sid : Nat) (cid : Option Nat)
    (dev ip ua : Option String) (now : Nat) :
    (adminScan o db sid cid dev ip ua now).2 = db ∨
    (∃ openId, (adminScan o db sid cid dev ip ua now).2 =
      mapRecordsDb db (closeRecordB dev ip ua now openId)) ∨
    (∃ student,
      findStudentById db sid = some student ∧
      scanOpenRecord o db sid (effectiveCenter student cid) now = none ∧
      (adminScan o db sid cid dev ip ua now).2 =
        insertRecordDb db
          (scanRecord db sid (effectiveCenter student cid) dev ip ua now)) := by
  by_cases h0 : (sid == 0) = true
  · left; simp [adminScan, h0]
  · cases hs : findStudentById db sid with
    | none => left; simp [adminScan, h0, hs]
    | some student =>
    cases hcen : findCenterById db (effectiveCenter student cid) with
    | none => left; simp [adminScan, h0, hs, hcen]
    | some center =>
    have hdecide : ∀ hres : ScanResult × Db,
        hres = adminScanDecide db sid (effectiveCenter student cid) dev ip ua
          now (scanOpenRecord o db sid (effectiveCenter student cid) now)
          (scanWindowRecords o db sid (effectiveCenter student cid) now).length →
        hres.2 = db ∨
        (∃ openId, hres.2 =
          mapRecordsDb db (closeRecordB dev ip ua now openId)) ∨
        (scanOpenRecord o db sid (effectiveCenter student cid) now = none ∧
          hres.2 = insertRecordDb db
            (scanRecord db sid (effectiveCenter student cid) dev ip ua now)) := by
      intro hres hresdef
      cases hop : scanOpenRecord o db sid (effectiveCenter student cid) now with
      | some orec =>
        right; left
        refine ⟨orec.id, ?_⟩
        rw [hresdef]
        simp [adminScanDecide, hop]
      | none =>
        by_cases hcap : (scanWindowRecords o db sid (effectiveCenter student cid) now).length ≥ 2
        · left
          rw [hresdef]
          simp [adminScanDecide, hop, hcap]
        · right; right
          refine ⟨rfl, ?_⟩
          rw [hresdef]
          simp [adminScanDecide, hop, hcap]
    cases hla : scanLastActionAt
        (latestRecord (scanWindowRecords o db sid (effectiveCenter student cid) now))
        (scanOpenRecord o db sid (effectiveCenter student cid) now) with
    | some la =>
      by_cases hgap : now - la < minGapMs
      · left
        simp [adminScan, h0, hs, hcen, hla, hgap]
      · have hmain : adminScan o db sid cid dev ip ua now =
            adminScanDecide db sid (effectiveCenter student cid) dev ip ua now
              (scanOpenRecord o db sid (effectiveCenter student cid) now)
              (scanWindowRecords o db sid (effectiveCenter student cid) now).length := by
          simp [adminScan, h0, hs, hcen, hla, hgap]
        rcases hdecide _ hmain with ha | hb | ⟨hop2, hc2⟩
        · left; exact ha
        · right; left; exact hb
        · right; right; exact ⟨student, rfl, hop2, hc2⟩
    | none =>
      have hmain : adminScan o db sid cid dev ip ua now =
          adminScanDecide db sid (effectiveCenter student cid) dev ip ua now
            (scanOpenRecord o db sid (effectiveCenter student cid) now)
            (scanWindowRecords o db sid (effectiveCenter student cid) now).length := by
        simp [adminScan, h0, hs, hcen, hla]
      rcases hdecide _ hmain with ha | hb | ⟨hop2, hc2⟩
      · left; exact ha
      · right; left; exact hb
      · right; right; exact ⟨student, rfl, hop2, hc2⟩

/-- Closing a record through the flow-A update never makes a row open: any
row satisfying the open-key predicate after the update satisfied it
before. -/
theorem openKeyP_closeRecordA (dayKey : Nat → Nat) (s c d : Nat)
    (lat lng : Rat) (acc : Option Rat) (dev ip ua : Option String)
    (now : Nat) (dm : Rat) (openId : Nat) (r : AttRecord)
    (h : openKeyP dayKey s c d (closeRecordA lat lng acc dev ip ua now dm
      openId r) = true) :
    openKeyP dayKey s c d r = true := by
  by_cases hid : (r.id == openId) = true
  · rw [closeRecordA, if_pos hid] at h
    simp [openKeyP] at h
  · rw [closeRecordA, if_neg hid] at h
    exact h

/-- Closing a record through the flow-B update never makes a row open. -/
theorem openKeyP_closeRecordB (dayKey : Nat → Nat) (s c d : Nat)
    (dev ip ua : Option String) (now : Nat) (openId : Nat) (r : AttRecord)
    (h : openKeyP dayKey s c d (closeRecordB dev ip ua now openId r) = true) :
    openKeyP dayKey s c d r = true := by
  by_cases hid : (r.id == openId) = true
  · rw [closeRecordB, if_pos hid] at h
    simp [openKeyP] at h
  · rw [closeRecordB, if_neg hid] at h
    exact h

/-- Mapping the store through a row function that never turns a row into an
open row of the key cannot increase the open count of any key. -/
theorem openCount_map_le (dayKey : Nat → Nat) (db : Db)
    (f : AttRecord → AttRecord) (s c d : Nat)
    (h : ∀ r, openKeyP dayKey s c d (f r) = true →
      openKeyP dayKey s c d r = true) :
    openCountForKey dayKey (mapRecordsDb db f) s c d ≤
      openCountForKey dayKey db s c d := by
  unfold openCountForKey mapRecordsDb
  simp only []
  rw [List.countP_map]
  exact List.countP_mono_left (fun r _ hr => h r hr)

/-- Inserting a record adds its own key membership to the count and leaves
other keys unchanged. -/
theorem openCount_insert (dayKey : Nat → Nat) (db : Db) (r : AttRecord)
    (s c d : Nat) :
    openCountForKey dayKey (insertRecordDb db r) s c d =
      openCountForKey dayKey db s c d +
        (if openKeyP dayKey s c d r then 1 else 0) := by
  unfold openCountForKey insertRecordDb
  simp only []
  rw [List.countP_append]
  congr 1
  by_cases hp : openKeyP dayKey s c d r = true
  · rw [if_pos hp]
    simp [List.countP, List.countP.go, hp]
  · rw [if_neg hp]
    simp only [Bool.not_eq_true] at hp
    simp [List.countP, List.countP.go, hp]

/-- One flow-A check-in preserves the UTC-keyed single-open-session
invariant. -/
theorem checkIn_preserves_inv (dist : Rat → Rat → Rat → Rat → Rat) (db : Db)
    (uid : Nat) (lat lng : Rat) (acc : Option Rat) (dev ip ua : Option String)
    (now : Nat) (h : OpenInvariant utcDay db) :
    OpenInvariant utcDay (studentCheckIn dist db uid lat lng acc dev ip ua
      now).2 := by
  rcases studentCheckIn_snd dist db uid lat lng acc dev ip ua now with heq |
    ⟨student, center, dm, _hs, hdup, heq⟩
  · rw [heq]; exact h
  · rw [heq]
    intro s c d
    rw [openCount_insert]
    by_cases hp : openKeyP utcDay s c d
        (checkInRecord db student center lat lng acc dev ip ua now dm) = true
    · have hzero : openCountForKey utcDay db s c d = 0 := by
        unfold openCountForKey
        rw [List.countP_eq_zero]
        intro r hr hpr
        have hq := List.find?_eq_none.mp hdup r hr
        apply hq
        simp only [openKeyP, Bool.and_eq_true, beq_iff_eq] at hpr hp
        rw [Bool.and_eq_true, beq_iff_eq, inWindow_utc_iff]
        constructor
        · rw [hpr.1.1.1]
          have : student.id = s := by
            have := hp.1.1.1
            simpa [checkInRecord] using this
          omega
        · have hd1 : utcDay r.checkInAt = d := hpr.2
          have hd2 : utcDay now = d := by
            have := hp.2
            simpa [checkInRecord] using this
          omega
      rw [hzero, if_pos hp]
    · rw [if_neg hp]
      simpa using h s c d

/-- One flow-A check-out preserves the UTC-keyed single-open-session
invariant. -/
theorem checkOut_preserves_inv (dist : Rat → Rat → Rat → Rat → Rat) (db : Db)
    (uid : Nat) (lat lng : Rat) (acc : Option Rat) (dev ip ua : Option String)
    (now : Nat) (h : OpenInvariant utcDay db) :
    OpenInvariant utcDay (studentCheckOut dist db uid lat lng acc dev ip ua
      now).2 := by
  rcases studentCheckOut_snd dist db uid lat lng acc dev ip ua now with heq |
    ⟨openId, dm, heq⟩
  · rw [heq]; exact h
  · rw [heq]
    intro s c d
    have h1 := openCount_map_le utcDay db
      (closeRecordA lat lng acc dev ip ua now dm openId) s c d
      (fun r => openKeyP_closeRecordA utcDay s c d lat lng acc dev ip ua
        now dm openId r)
    have h2 := h s c d
    omega

/-- One flow-B scan with timezone offset zero preserves the UTC-keyed
single-open-session invariant. -/
theorem scan_preserves_inv (db : Db) (sid : Nat) (cid : Option Nat)
    (dev ip ua : Option String) (now : Nat) (h : OpenInvariant utcDay db) :
    OpenInvariant utcDay (adminScan 0 db sid cid dev ip ua now).2 := by
  rcases adminScan_snd 0 db sid cid dev ip ua now with heq | ⟨openId, heq⟩ |
    ⟨student, _hs, hopen, heq⟩
  · rw [heq]; exact h
  · rw [heq]
    intro s c d
    have h1 := openCount_map_le utcDay db
      (closeRecordB dev ip ua now openId) s c d
      (fun r => openKeyP_closeRecordB utcDay s c d dev ip ua now openId r)
    have h2 := h s c d
    omega
  · rw [heq]
    intro s c d
    rw [openCount_insert]
    by_cases hp : openKeyP utcDay s c d
        (scanRecord db sid (effectiveCenter student cid) dev ip ua now) = true
    · have hzero : openCountForKey utcDay db s c d = 0 := by
        unfold openCountForKey
        rw [List.countP_eq_zero]
        intro r hr hpr
        have hwindow : (scanWindowRecords 0 db sid (effectiveCenter student cid)
            now).filter (fun r => r.checkOutAt.isNone) = [] := by
          have := hopen
          unfold scanOpenRecord at this
          exact (latestRecord_eq_none_iff _).mp this
        simp only [openKeyP, Bool.and_eq_true, beq_iff_eq] at hpr hp
        have hs2 : sid = s := by
          have := hp.1.1.1
          simpa [scanRecord] using this
        have hc2 : effectiveCenter student cid = c := by
          have := hp.1.1.2
          simpa [scanRecord] using this
        have hd2 : utcDay now = d := by
          have := hp.2
          simpa [scanRecord] using this
        have hrwin : r ∈ scanWindowRecords 0 db sid (effectiveCenter student
            cid) now := by
          unfold scanWindowRecords
          rw [List.mem_filter]
          refine ⟨hr, ?_⟩
          rw [Bool.and_eq_true, Bool.and_eq_true, beq_iff_eq, beq_iff_eq]
          refine ⟨⟨?_, ?_⟩, ?_⟩
          · have := hpr.1.1.1
            omega
          · have := hpr.1.1.2
            omega
          · rw [localDayStart_zero, inWindow_utc_iff]
            have := hpr.2
            omega
        have hropen : r.checkOutAt.isNone = true := by
          have := hpr.1.2
          simpa using this
        have := List.filter_eq_nil_iff.mp hwindow r hrwin
        simp [hropen] at this
      rw [hzero, if_pos hp]
    · rw [if_neg hp]
      simpa using h s c d

/-- C1 (amended). Single open session invariant under UTC-consistent day
handling: when the flow-B local day window coincides with flow A's UTC day
window (timezone offset zero) and (student, center, day) keys are taken on
UTC days, every sequence of admission operations — flow-A check-ins and
check-outs and flow-B scans — preserves the property that at most one record
with checkOutAt null exists per key; in particular a flow-B scan inserts a
new record only when no open record exists for (student, effective center,
today) and otherwise closes the open record. -/
theorem singleOpenSession_invariant (dist : Rat → Rat → Rat → Rat → Rat)
    (ops : List AdmissionOp) (db : Db) (h : OpenInvariant utcDay db) :
    OpenInvariant utcDay (applyOps dist 0 db ops) := by
  induction ops generalizing db with
  | nil => exact h
  | cons op rest ih =>
    rw [applyOps, List.foldl_cons]
    apply ih
    cases op with
    | opCheckIn uid lat lng acc dev ip ua now =>
      exact checkIn_preserves_inv dist db uid lat lng acc dev ip ua now h
    | opCheckOut uid lat lng acc dev ip ua now =>
      exact checkOut_preserves_inv dist db uid lat lng acc dev ip ua now h
    | opScan sid cid dev ip ua now =>
      exact scan_preserves_inv db sid cid dev ip ua now h

/-- Witness for C1 (amended): after the five-scan sequence run with offset
zero, the (student 1, center 1, UTC day 1) key still has at most one open
record. -/
theorem singleOpenSession_invariant_witness :
    openCountForKey utcDay (applyOps (distConst 0) 0 demoDb c5Ops) 1 1 1 ≤ 1 := by
  exact singleOpenSession_invariant (distConst 0) c5Ops demoDb
    (fun s c d => by simp [openCountForKey, demoDb]) 1 1 1

end GeoAttendance
